import Mathlib

/-!
Verification of the LDAP identity resolver
(`privacyidea/lib/resolvers/LDAPIdResolver.py`) and, where filter
semantics are needed, of the repository's simulated directory backend
(`tests/ldap3mock.py`).

The Python code is shallowly embedded:
* Python strings are `String` (logically `List Char`); the character-level
  helpers (`split`, `strip`, `replace`, `lower`) work on `List Char`.
* Python dictionaries are association lists with insert-or-replace
  assignment (`dinsert`) and first-match lookup (`pyGet`); dictionary
  iteration order is modelled as insertion order.
* Python exceptions are `Except String`; a raised exception is `.error`.
* The LDAP network (reachability, bind results, search responses) is an
  oracle `World`; the resolver's protocol calls are recorded as `Event`s
  so that theorems can speak about which sessions were opened, bound,
  unbound and searched.
-/

/-- Values held in Python variables / dictionary slots in the embedded code:
`None`, a string (Python 2 `str`, also used for byte strings), an integer,
or a list of strings (multi-valued LDAP attributes). -/
inductive PyVal where
  | vnone : PyVal
  | vstr (s : String) : PyVal
  | vint (n : Int) : PyVal
  | vlist (l : List String) : PyVal
deriving DecidableEq, Repr

/-- Python `s.split(sep)` for a single-character separator.
`pySplit c l` always returns a non-empty list of fragments. -/
def pySplit (sep : Char) : List Char → List (List Char)
  | [] => [[]]
  | c :: cs =>
    if c = sep then [] :: pySplit sep cs
    else
      match pySplit sep cs with
      | [] => [[c]]
      | t :: ts => (c :: t) :: ts

/-- Python `s.strip(chars)`: remove the characters satisfying `p` from both
ends of the list. -/
def pyStrip (p : Char → Bool) (l : List Char) : List Char :=
  ((l.dropWhile p).reverse.dropWhile p).reverse

/-- Python `s.replace(c, r)` for a single-character pattern `c`:
substitute every occurrence of `c` by `r`. -/
def pyReplaceChar (c : Char) (r : List Char) : List Char → List Char
  | [] => []
  | a :: s => (if a = c then r else [a]) ++ pyReplaceChar c r s

/-- Python `s.lower()` (ASCII case folding suffices for the scheme names
compared in the source). -/
def pyLower (l : List Char) : List Char := l.map Char.toLower

/-- Python `int(s)`, modelled for unsigned decimal strings (the only shape
the resolver ever feeds it: LDAP ports and timestamps); any other input
raises `ValueError`, as in Python. Signs and surrounding whitespace are
not modelled. -/
def pyIntE (l : List Char) : Except String Nat :=
  if l ≠ [] ∧ l.all Char.isDigit then
    .ok (l.foldl (fun acc c => 10 * acc + (c.toNat - '0'.toNat)) 0)
  else .error "ValueError: invalid literal for int()"

/-- Python `v in s` for strings: `v` occurs as a contiguous substring of `s`. -/
def listContains (v : List Char) : List Char → Bool
  | [] => v = ([] : List Char)
  | a :: t => v.isPrefixOf (a :: t) || listContains v t

/-- Python dictionary lookup `d.get(k)` on an association list (first match;
keys are unique for lists built by `dinsert`). -/
def pyGet {α : Type} (d : List (String × α)) (k : String) : Option α :=
  match d with
  | [] => none
  | (k', v) :: t => if k' = k then some v else pyGet t k

/-- Python dictionary assignment `d[k] = v`: replace the binding in place if
the key is present, otherwise append it. -/
def dinsert {α : Type} (d : List (String × α)) (k : String) (v : α) :
    List (String × α) :=
  match d with
  | [] => [(k, v)]
  | (k', v') :: t => if k' = k then (k, v) :: t else (k', v') :: dinsert t k v

/-- `AUTHTYPE.SIMPLE` from the source. -/
def AUTHTYPE_SIMPLE : String := "Simple"

/-- `AUTHTYPE.SASL_DIGEST_MD5` from the source. -/
def AUTHTYPE_SASL : String := "SASL Digest-MD5"

/-- `AUTHTYPE.NTLM` from the source. -/
def AUTHTYPE_NTLM : String := "NTLM"

/-- `IdResolver.split_uri` (lines 472-503): split an LDAP URI on `:` into a
`(server, port, ssl)` triple.  With three fragments the port is parsed with
`int(...)` (which can raise); with two fragments the port stays unset; any
other shape falls back to the whole string as the host.  `strip("/")`
removes the slashes left of the host by `scheme://`. -/
def split_uri (uri : List Char) : Except String (List Char × Option Nat × Bool) :=
  match pySplit ':' uri with
  | [e0, e1, e2] =>
    match pyIntE e2 with
    | .error e => .error e
    | .ok port =>
      .ok (pyStrip (fun c => c = '/') e1, some port,
           decide (pyLower e0 = "ldaps".data))
  | [e0, e1] =>
    .ok (pyStrip (fun c => c = '/') e1, none,
         decide (pyLower e0 = "ldaps".data))
  | _ => .ok (uri, none, false)

/-- `IdResolver.get_serverpool` (lines 505-533), restricted to the part that
can raise before any network traffic: the comma-separated URI list is split,
each element stripped of surrounding whitespace and parsed with `split_uri`.
(The `ldap3.Server`/`ServerPool` constructors perform no network calls.) -/
def get_serverpool (urilist : String) :
    Except String (List (List Char × Option Nat × Bool)) :=
  (pySplit ',' urilist.data).mapM
    (fun u => split_uri (pyStrip Char.isWhitespace u))

/-- `IdResolver._escape_loginname` (lines 172-189): the chain of five
`replace` calls escaping `\`, `*`, `(`, `)`, `/` to their protocol
hex-escape forms. -/
def escape_loginname (s : List Char) : List Char :=
  pyReplaceChar '/' "\\2f".data
    (pyReplaceChar ')' "\\29".data
      (pyReplaceChar '(' "\\28".data
        (pyReplaceChar '*' "\\2a".data
          (pyReplaceChar '\\' "\\5c".data s))))

/-- Per-character encoding realised by `escape_loginname` (used to state and
prove its properties; `escapeLoginname_eq_encodeLogin` shows the chain of
`replace` calls computes exactly this homomorphism). -/
def encChar (a : Char) : List Char :=
  if a = '\\' then "\\5c".data
  else if a = '*' then "\\2a".data
  else if a = '(' then "\\28".data
  else if a = ')' then "\\29".data
  else if a = '/' then "\\2f".data
  else [a]

/-- Concatenation of `encChar` over a string. -/
def encodeLogin : List Char → List Char
  | [] => []
  | a :: s => encChar a ++ encodeLogin s

/-- Lowercase hexadecimal rendering of one byte, as Python's `%02x` /
`uuid` module produce. -/
def hexByte (n : Nat) : List Char :=
  [Nat.digitChar (n / 16 % 16), Nat.digitChar (n % 16)]

/-- `str(uuid.UUID(bytes_le=b))`: reorder the 16 little-endian bytes into
big-endian field order and print the canonical dashed GUID text.  Raises
`ValueError` when `b` is not exactly 16 bytes, as the `uuid` module does.
Bytes are the character codes of the Python 2 byte string `b`. -/
def guidStrOfBytesLE (b : String) : Except String String :=
  match b.data.map Char.toNat with
  | [b0, b1, b2, b3, b4, b5, b6, b7, b8, b9, b10, b11, b12, b13, b14, b15] =>
    .ok ⟨hexByte b3 ++ hexByte b2 ++ hexByte b1 ++ hexByte b0 ++ ['-'] ++
         hexByte b5 ++ hexByte b4 ++ ['-'] ++
         hexByte b7 ++ hexByte b6 ++ ['-'] ++
         hexByte b8 ++ hexByte b9 ++ ['-'] ++
         hexByte b10 ++ hexByte b11 ++ hexByte b12 ++ hexByte b13 ++
         hexByte b14 ++ hexByte b15⟩
  | _ => .error "ValueError: bytes_le is not a 16-char string"

/-- Value of one hexadecimal digit character, if any. -/
def hexVal (c : Char) : Option Nat :=
  if c.isDigit then some (c.toNat - '0'.toNat)
  else if 'a' ≤ c ∧ c ≤ 'f' then some (c.toNat - 'a'.toNat + 10)
  else if 'A' ≤ c ∧ c ≤ 'F' then some (c.toNat - 'A'.toNat + 10)
  else none

/-- Hex digits to bytes (most significant first per pair). -/
def hexPairsToBytes : List Char → Except String (List Nat)
  | [] => .ok []
  | [_] => .error "ValueError: odd-length hex string"
  | c1 :: c2 :: rest =>
    match hexVal c1, hexVal c2 with
    | some h1, some h2 =>
      match hexPairsToBytes rest with
      | .ok bs => .ok ((16 * h1 + h2) :: bs)
      | .error e => .error e
    | _, _ => .error "ValueError: badly formed hexadecimal UUID string"

/-- `uuid.UUID("{%s}" % userId).bytes_le` followed by
`ldap3.utils.conv.escape_bytes`: parse the GUID text (braces stripped,
dashes removed, 32 hex digits required), reorder the leading fields to
little-endian, and render every byte as `\xx`.  Used by `_getDN` for
`uidtype == "objectGUID"`. -/
def guidTextToEscapedBytes (userId : String) : Except String String :=
  let h := pyStrip (fun c => c = '\x7b' ∨ c = '\x7d') ("\x7b".data ++ userId.data ++ "\x7d".data)
  let h := (h.filter (fun c => ¬ (c = '-')))
  if h.length = 32 then
    match hexPairsToBytes h with
    | .error e => .error e
    | .ok bytes =>
      match bytes with
      | [b0, b1, b2, b3, b4, b5, b6, b7, b8, b9, b10, b11, b12, b13, b14, b15] =>
        .ok ⟨([b3, b2, b1, b0, b5, b4, b7, b6, b8, b9, b10, b11, b12, b13, b14, b15].map
              (fun b => '\\' :: hexByte b)).flatten⟩
      | _ => .error "ValueError: badly formed hexadecimal UUID string"
  else .error "ValueError: badly formed hexadecimal UUID string"

/-- Python `str(x)` via `"{0!s}".format(...)` on an optional dictionary
value, as used by the NTLM branch of `checkPass` on
`uinfo.get("username")`. -/
def pyStr (v : Option PyVal) : String :=
  match v with
  | none => "None"
  | some .vnone => "None"
  | some (.vstr s) => s
  | some (.vint n) => toString n
  | some (.vlist l) =>
    "[" ++ String.intercalate ", " (l.map (fun s => "'" ++ s ++ "'")) ++ "]"

/-- One entry of an LDAP search response (or of the mock directory):
its result type tag, its distinguished name and its attribute dictionary. -/
structure LDAPEntry where
  etype : String
  dn : String
  attributes : List (String × PyVal)
deriving DecidableEq, Repr

/-- The fields of `IdResolver` loaded by `loadConfig` that the verified
operations read. -/
structure Config where
  uri : String
  basedn : String
  binddn : String
  bindpw : String
  sizelimit : Nat
  loginname_attribute : String
  searchfilter : String
  userinfo : List (String × String)
  uidtype : String
  noreferrals : Bool
  authtype : String
deriving Repr

/-- The directory/network oracle: whether endpoints are reachable, which
(identity, password) pairs bind successfully, what a search / paged search
returns for a given base and filter, and the current Active-Directory
timestamp returned by `get_ad_timestamp_now` (100ns ticks since 1601). -/
structure World where
  connectOk : Bool
  bindOk : String → String → Bool
  search : String → String → List LDAPEntry
  pagedSearch : String → String → List LDAPEntry
  adNow : Nat

/-- Protocol calls recorded while running an operation; each connection
object carries the id it was created with, so a fresh per-call session is
distinguishable from the facade's cached one. -/
inductive Event where
  | conOpen (cid : Nat) (user : String)
  | conBind (cid : Nat) (user : String)
  | conUnbind (cid : Nat)
  | conSearch (cid : Nat) (base : String) (filter : String)
deriving DecidableEq, Repr

/-- Mutable facade state: `bound = some cid` models `i_am_bound == True`
with `self.l` being connection `cid`; `nextConn` numbers the next
connection object to be created. -/
structure RState where
  bound : Option Nat
  nextConn : Nat
deriving DecidableEq, Repr

/-- Events plus a normal result or a raised exception. -/
structure Res (α : Type) where
  events : List Event
  out : Except String α
deriving Repr

/-- `IdResolver._trim_result` (lines 149-170): with `noreferrals` set, keep
exactly the entries of type `searchResEntry` (referrals, and any entry with
another type tag, are dropped by the if/elif); otherwise pass the list
through unchanged. -/
def trim_result (cfg : Config) (result_list : List LDAPEntry) : List LDAPEntry :=
  if cfg.noreferrals then
    result_list.filter (fun r => r.etype = "searchResEntry")
  else result_list

/-- `IdResolver.create_connection` (lines 635-683), reduced to what is
observable before any network call: an unsupported `authtype` raises; the
supported modes construct a connection object. -/
def createConnCheck (authtype : String) : Except String Unit :=
  if authtype = AUTHTYPE_SIMPLE then .ok ()
  else if authtype = AUTHTYPE_NTLM then .ok ()
  else if authtype = AUTHTYPE_SASL then .ok ()
  else .error ("Authtype " ++ authtype ++ " not supported")

/-- `IdResolver._bind` (lines 240-252): when not yet bound, create a
connection as the configured service account, open it and bind; a failed
open or a `False` bind result raises, leaving `i_am_bound` unset.  Returns
the id of the cached bound connection. -/
def bindStep (cfg : Config) (w : World) (st : RState) : Res Nat × RState :=
  match st.bound with
  | some c => (⟨[], .ok c⟩, st)
  | none =>
    match createConnCheck cfg.authtype with
    | .error e => (⟨[], .error e⟩, st)
    | .ok _ =>
      let c := st.nextConn
      let st' : RState := ⟨none, c + 1⟩
      if ¬ w.connectOk then
        (⟨[.conOpen c cfg.binddn], .error "LDAPException: unreachable"⟩, st')
      else if ¬ w.bindOk cfg.binddn cfg.bindpw then
        (⟨[.conOpen c cfg.binddn, .conBind c cfg.binddn],
          .error "Wrong credentials"⟩, st')
      else
        (⟨[.conOpen c cfg.binddn, .conBind c cfg.binddn], .ok c⟩,
         ⟨some c, c + 1⟩)

/-- `IdResolver._get_uid` (lines 191-205): for `uidtype == "dn"`
(case-insensitively) the entry's DN; otherwise the named attribute, first
element if it is a list (an empty list raises `IndexError`, a missing
attribute yields `None`), GUID-decoded when the uidtype is `objectGUID`
(raising on anything but a 16-byte value). -/
def get_uid (entry : LDAPEntry) (uidtype : String) : Except String PyVal :=
  if ⟨pyLower uidtype.data⟩ = ("dn" : String) then .ok (.vstr entry.dn)
  else
    let uid : Except String PyVal :=
      match pyGet entry.attributes uidtype with
      | none => .ok .vnone
      | some (.vlist []) => .error "IndexError: list index out of range"
      | some (.vlist (x :: _)) => .ok (.vstr x)
      | some v => .ok v
    match uid with
    | .error e => .error e
    | .ok uid =>
      if uidtype = "objectGUID" then
        match uid with
        | .vstr b =>
          match guidStrOfBytesLE b with
          | .ok g => .ok (.vstr g)
          | .error e => .error e
        | .vnone => .error "TypeError: bytes_le is None"
        | _ => .error "TypeError: bytes_le has wrong type"
      else .ok uid

/-- Inner conversion of `_ldap_attributes_to_user_object` (lines 302-310)
for one matched pair: `objectGUID` attributes are GUID-decoded from their
first element (`ldap_v[0]`; for a plain string this is its first character,
a 1-byte string, so the decode raises); any other list not mapped to
`mobile` contributes its first element (raising `IndexError` when empty);
everything else is used as-is. -/
def convOne (map_k ldap_k : String) (v : PyVal) : Except String PyVal :=
  if ldap_k = "objectGUID" then
    match v with
    | .vlist [] => .error "IndexError: list index out of range"
    | .vlist (b :: _) =>
      match guidStrOfBytesLE b with
      | .ok g => .ok (.vstr g)
      | .error e => .error e
    | .vstr s =>
      match s.data with
      | [] => .error "IndexError: string index out of range"
      | c :: _ =>
        match guidStrOfBytesLE ⟨[c]⟩ with
        | .ok g => .ok (.vstr g)
        | .error e => .error e
    | .vnone => .error "TypeError: not subscriptable"
    | .vint _ => .error "TypeError: not subscriptable"
  else
    match v with
    | .vlist l =>
      if ¬ (map_k = "mobile") then
        match l with
        | [] => .error "IndexError: list index out of range"
        | x :: _ => .ok (.vstr x)
      else .ok (.vlist l)
    | _ => .ok v

/-- Inner loop of `_ldap_attributes_to_user_object`: for one LDAP attribute
`(ldap_k, v)`, walk the userinfo mapping and assign `ret[map_k]` for every
pair whose attribute name matches. -/
def decodeInner (ldap_k : String) (v : PyVal) :
    List (String × String) → List (String × PyVal) →
    Except String (List (String × PyVal))
  | [], ret => .ok ret
  | (map_k, map_v) :: rest, ret =>
    if ldap_k = map_v then
      match convOne map_k ldap_k v with
      | .error e => .error e
      | .ok cv => decodeInner ldap_k v rest (dinsert ret map_k cv)
    else decodeInner ldap_k v rest ret

/-- Outer loop of `_ldap_attributes_to_user_object`: fold of `decodeInner`
over the raw attribute dictionary. -/
def decodeFold (userinfo : List (String × String)) :
    List (String × PyVal) → List (String × PyVal) →
    Except String (List (String × PyVal))
  | [], ret => .ok ret
  | (ldap_k, v) :: rest, ret =>
    match decodeInner ldap_k v userinfo ret with
    | .error e => .error e
    | .ok ret' => decodeFold userinfo rest ret'

/-- `IdResolver._ldap_attributes_to_user_object` (lines 290-311): convert the
LDAP attributes of one entry into a privacyIDEA user record via the
userinfo mapping, starting from the empty dictionary. -/
def ldap_attributes_to_user_object
    (attributes : List (String × PyVal)) (userinfo : List (String × String)) :
    Except String (List (String × PyVal)) :=
  decodeFold userinfo attributes []

/-- `IdResolver._getDN` (lines 207-238): for DN-typed uids the userId itself;
otherwise (after GUID re-encoding for `objectGUID`) bind the service account,
search `(&<searchfilter>(<uidtype>=<userId>))` under the base DN, trim
referrals, raise on more than one hit, and return the single hit's DN (the
empty string when nothing was found). -/
def getDN (cfg : Config) (w : World) (st : RState) (userId : String) :
    Res String × RState :=
  if (⟨pyLower cfg.uidtype.data⟩ : String) = "dn" then (⟨[], .ok userId⟩, st)
  else
    match (if cfg.uidtype = "objectGUID" then guidTextToEscapedBytes userId
      else .ok userId) with
    | .error e => (⟨[], .error e⟩, st)
    | .ok userId' =>
      match bindStep cfg w st with
      | (⟨evs, .error e⟩, st') => (⟨evs, .error e⟩, st')
      | (⟨evs, .ok c⟩, st') =>
        let filter := "(&" ++ cfg.searchfilter ++ "(" ++ cfg.uidtype ++ "=" ++
          userId' ++ "))"
        let evs := evs ++ [.conSearch c cfg.basedn filter]
        let r := trim_result cfg (w.search cfg.basedn filter)
        (⟨evs,
          if r.length > 1 then
            .error ("Found more than one object for uid '" ++ userId' ++ "'")
          else
            match r with
            | [e0] => .ok e0.dn
            | _ => .ok ""⟩, st')

/-- `IdResolver.getUserInfo` (lines 254-288): bind the service account,
search (by base for DN-typed uids, by uid filter otherwise), trim referrals,
raise on more than one hit, and decode the hit's attributes (the empty
record when nothing was found). -/
def getUserInfo (cfg : Config) (w : World) (st : RState) (userId : String) :
    Res (List (String × PyVal)) × RState :=
  match bindStep cfg w st with
  | (⟨evs, .error e⟩, st') => (⟨evs, .error e⟩, st')
  | (⟨evs, .ok c⟩, st') =>
    let bf : String × String :=
      if (⟨pyLower cfg.uidtype.data⟩ : String) = "dn" then
        (userId, "(&" ++ cfg.searchfilter ++ ")")
      else
        (cfg.basedn,
         "(&" ++ cfg.searchfilter ++ "(" ++ cfg.uidtype ++ "=" ++ userId ++ "))")
    let evs := evs ++ [.conSearch c bf.1 bf.2]
    let r := trim_result cfg (w.search bf.1 bf.2)
    (⟨evs,
      if r.length > 1 then
        .error ("Found more than one object for uid '" ++ userId ++ "'")
      else
        match r.foldlM
            (fun _ entry => ldap_attributes_to_user_object entry.attributes
              cfg.userinfo)
            ([] : List (String × PyVal)) with
        | .error e => .error e
        | .ok ret => .ok ret⟩, st')

/-- `IdResolver.getUserId` (lines 324-356): bind the service account, search
with the escaped login name on the configured login attribute, trim
referrals, raise on more than one hit, and extract the uid of the hit via
`_get_uid` (the initial empty string when nothing was found). -/
def getUserId (cfg : Config) (w : World) (st : RState) (LoginName : String) :
    Res PyVal × RState :=
  match bindStep cfg w st with
  | (⟨evs, .error e⟩, st') => (⟨evs, .error e⟩, st')
  | (⟨evs, .ok c⟩, st') =>
    let filter := "(&" ++ cfg.searchfilter ++ "(" ++ cfg.loginname_attribute ++
      "=" ++ (⟨escape_loginname LoginName.data⟩ : String) ++ "))"
    let evs := evs ++ [.conSearch c cfg.basedn filter]
    let r := trim_result cfg (w.search cfg.basedn filter)
    (⟨evs,
      if r.length > 1 then
        .error ("Found more than one object for Loginname '" ++ LoginName ++ "'")
      else
        match r.foldlM (fun _ entry => get_uid entry cfg.uidtype)
            (PyVal.vstr "") with
        | .error e => .error e
        | .ok userid => .ok userid⟩, st')

/-- `checkPass` lines 107-118: compute the bind identity for the uid.  NTLM
mode derives `domain\username` from the service-account domain prefix and a
forward lookup of the user's `username`; every other mode resolves the uid
to a DN via `_getDN`.  This part runs before the `try` block of
`checkPass`, so its exceptions propagate. -/
def resolveBindUser (cfg : Config) (w : World) (st : RState) (uid : String) :
    Res String × RState :=
  if cfg.authtype = AUTHTYPE_NTLM then
    let domain_name : String := ⟨(pySplit '\\' cfg.binddn.data).headD []⟩
    match getUserInfo cfg w st uid with
    | (⟨evs, .error e⟩, st') => (⟨evs, .error e⟩, st')
    | (⟨evs, .ok uinfo⟩, st') =>
      (⟨evs, .ok (domain_name ++ "\\" ++ pyStr (pyGet uinfo "username"))⟩, st')
  else getDN cfg w st uid

/-- The `try` block of `checkPass` (lines 123-147): an empty bind identity,
a connection-constructor error, a failed open or a `False` bind result all
raise, are caught, and yield `False`; only a successful bind reaches the
`unbind` and yields `True`.  Returns the events of the block, the caught
outcome and the state after it. -/
def checkPassTry (cfg : Config) (w : World) (st : RState)
    (bind_user password : String) : List Event × Except String Bool × RState :=
  if bind_user = "" then ([], .ok false, st)
  else
    match createConnCheck cfg.authtype with
    | .error _ => ([], .ok false, st)
    | .ok _ =>
      let c := st.nextConn
      let st' : RState := ⟨st.bound, c + 1⟩
      if ¬ w.connectOk then ([.conOpen c bind_user], .ok false, st')
      else if w.bindOk bind_user password then
        ([.conOpen c bind_user, .conBind c bind_user, .conUnbind c],
         .ok true, st')
      else ([.conOpen c bind_user, .conBind c bind_user], .ok false, st')

/-- `IdResolver.checkPass` (lines 100-147): resolve the bind identity and
build the server pool (both outside the `try` block, so their exceptions
propagate), then authenticate on a fresh connection inside the `try` block,
which converts every failure into `False`.  The password is passed through
`to_utf8`, modelled as the identity on already-encoded strings. -/
def checkPass (cfg : Config) (w : World) (st : RState)
    (uid password : String) : Res Bool × RState :=
  match resolveBindUser cfg w st uid with
  | (⟨evs, .error e⟩, st1) => (⟨evs, .error e⟩, st1)
  | (⟨evs, .ok bind_user⟩, st1) =>
    match get_serverpool cfg.uri with
    | .error e => (⟨evs, .error e⟩, st1)
    | .ok _ =>
      match checkPassTry cfg w st1 bind_user password with
      | (post, out, st2) => (⟨evs ++ post, out⟩, st2)

/-- The filter loop of `getUserList` (lines 371-384): AND the base search
filter with one clause per search criterion; the `accountExpires` key emits
`(|(<attr><cmp><now>)(<attr>!=0))` with `<=` for "expired" (value `"1"`)
and `>=` otherwise, every other key emits `(<attr>=<value>)`.  The
criterion values are modelled as strings, so the membership test
`in ["1", 1]` becomes equality with `"1"`.  A criterion key absent from the
userinfo mapping raises `KeyError`, as `self.userinfo[search_key]` does. -/
def buildUserListFilter (cfg : Config) (now : Nat)
    (searchDict : List (String × String)) : Except String String :=
  match searchDict.foldlM
      (fun (acc : String) (kv : String × String) =>
        (match pyGet cfg.userinfo kv.1 with
        | none => .error ("KeyError: " ++ kv.1)
        | some attr =>
          if kv.1 = "accountExpires" then
            let comperator : String := if kv.2 = "1" then "<=" else ">="
            .ok (acc ++ "(|(" ++ attr ++ comperator ++ toString now ++ ")(" ++
              attr ++ "!=0))")
          else .ok (acc ++ "(" ++ attr ++ "=" ++ kv.2 ++ ")") :
          Except String String))
      ("(&" ++ cfg.searchfilter) with
  | .error e => .error e
  | .ok f => .ok (f ++ ")")

/-- The streaming loop of `getUserList` (lines 394-406): stop as soon as the
accumulated list has reached `sizelimit`; otherwise decode the entry, set
its `userid` from `_get_uid`, and append; a per-entry exception is logged
and the entry skipped. -/
def userListLoop (cfg : Config) :
    List LDAPEntry → List (List (String × PyVal)) → List (List (String × PyVal))
  | [], ret => ret
  | entry :: rest, ret =>
    if cfg.sizelimit ≤ ret.length then ret
    else
      match ldap_attributes_to_user_object entry.attributes cfg.userinfo with
      | .error _ => userListLoop cfg rest ret
      | .ok user =>
        match get_uid entry cfg.uidtype with
        | .error _ => userListLoop cfg rest ret
        | .ok uid => userListLoop cfg rest (ret ++ [dinsert user "userid" uid])

/-- `IdResolver.getUserList` (lines 358-407): bind the service account,
compile the filter, run the paged search (modelled as the oracle's full
entry stream, since the upstream server is not trusted to honour limits)
and stream entries through `userListLoop`. -/
def getUserList (cfg : Config) (w : World) (st : RState)
    (searchDict : List (String × String)) :
    Res (List (List (String × PyVal))) × RState :=
  match bindStep cfg w st with
  | (⟨evs, .error e⟩, st') => (⟨evs, .error e⟩, st')
  | (⟨evs, .ok c⟩, st') =>
    match buildUserListFilter cfg w.adNow searchDict with
    | .error e => (⟨evs, .error e⟩, st')
    | .ok filter =>
      let evs := evs ++ [.conSearch c cfg.basedn filter]
      let entries := w.pagedSearch cfg.basedn filter
      (⟨evs, .ok (userListLoop cfg entries [])⟩, st')

/-- `ldap3.utils.conv.check_escape` as used by the mock when storing a
condition value: turn every `\xy` hex escape back into its character;
everything else passes through.  Identity on backslash-free strings. -/
def checkEscape : List Char → List Char
  | [] => []
  | '\\' :: c1 :: c2 :: rest =>
    match hexVal c1, hexVal c2 with
    | some h1, some h2 => Char.ofNat (16 * h1 + h2) :: checkEscape rest
    | _, _ => '\\' :: checkEscape (c1 :: c2 :: rest)
  | c :: rest => c :: checkEscape rest

/-- Condition-building loop of `ldap3mock.Connection.search` (lines 143-152
of `tests/ldap3mock.py`): repeatedly cut the text up to the next `)`, strip
the chunk down to `key=value`, and record it in the condition dictionary
(skipping empty chunks and `*` values).  The loop consumes at least one
character per iteration, so fuel `s.length + 1` never runs out; a chunk
with no `)` left makes the Python loop spin forever, modelled as an error,
and a chunk that does not split into exactly two fragments on `=` raises
`ValueError` from the tuple unpacking. -/
def mockParseLoop : Nat → List Char → List (String × String) →
    Except String (List (String × String))
  | _, [], condition => .ok condition
  | 0, _ :: _, _ => .error "fuel exhausted (unreachable: each step consumes a character)"
  | fuel + 1, s@(_ :: _), condition =>
    match s.span (fun c => ¬ (c = ')')) with
    | (_, []) => .error "no closing parenthesis: the mock's while loop would not terminate"
    | (pre, _ :: rest) =>
      let cur := pre.drop 1
      let cur := pyStrip (fun c => c = '|') cur
      let cur := pyStrip (fun c => c = '(') cur
      let cur := pyStrip (fun c => c = ')') cur
      if cur = [] then mockParseLoop fuel rest condition
      else
        match pySplit '=' cur with
        | [k, v] =>
          if v = "*".data then mockParseLoop fuel rest condition
          else mockParseLoop fuel rest
            (dinsert condition ⟨k⟩ (⟨checkEscape v⟩ : String))
        | _ => .error "ValueError: unpacking cur.split of the mock filter chunk"

/-- Filter-to-conditions front end of the mock's `search`: strip the leading
`(&` and trailing `)` (`search_filter[2:-1]`) and run the chunk loop. -/
def mockParseConditions (search_filter : String) :
    Except String (List (String × String)) :=
  let s := (search_filter.data.drop 2).dropLast
  mockParseLoop (s.length + 1) s []

/-- Python 2 `ldap_value != requested_value` for an attribute value against
the integer parsed from the condition: values of a different type are
always unequal. -/
def pyNeInt (v : PyVal) (n : Int) : Bool :=
  match v with
  | .vint m => ¬ (m = n)
  | _ => true

/-- Python 2 `ldap_value < requested_value` against an integer: numbers
compare numerically, `None` sorts below every number, and strings/lists
sort above (Python 2's cross-type ordering). -/
def pyLtInt (v : PyVal) (n : Int) : Bool :=
  match v with
  | .vint m => m < n
  | .vnone => true
  | _ => false

/-- Python 2 `attribute_value == v` for a condition value `v : str`. -/
def pyEqStr (v : PyVal) (s : String) : Bool :=
  match v with
  | .vstr s' => s' = s
  | _ => false

/-- Python `v in attribute_value` of the mock's substring branch: substring
test on strings, membership on lists, `TypeError` otherwise. -/
def pyInOp (v : List Char) (av : PyVal) : Except String Bool :=
  match av with
  | .vstr s => .ok (listContains v s.data)
  | .vlist l => .ok (decide ((⟨v⟩ : String) ∈ l))
  | _ => .error "TypeError: argument of type is not iterable"

/-- Condition-evaluation loop of the mock's `search` (lines 159-202): each
condition key may carry a trailing `<` (less-than, from `<=` splitting) or
`!` (not-equal, from `!=` splitting); a key that is no attribute of the
entry makes the entry fail; otherwise the branches compare numerically,
exactly, or by substring (with `*` stripped).  All conditions are ANDed. -/
def mockEvalConds : List (String × String) → LDAPEntry → Bool →
    Except String Bool
  | [], _, found => .ok found
  | (k, v) :: rest, entry, found =>
    let lesser := k.data.getLast? = some '<'
    let k : String := if lesser then ⟨pyStrip (fun c => c = '<') k.data⟩ else k
    let unequal := k.data.getLast? = some '!'
    let k : String := if unequal then ⟨pyStrip (fun c => c = '!') k.data⟩ else k
    match pyGet entry.attributes k with
    | some av =>
      if unequal then
        match pyIntE v.data with
        | .error e => .error e
        | .ok rv => mockEvalConds rest entry (found && pyNeInt av rv)
      else if lesser then
        match pyIntE v.data with
        | .error e => .error e
        | .ok rv => mockEvalConds rest entry (found && pyLtInt av rv)
      else if pyEqStr av v then mockEvalConds rest entry (found && true)
      else if v.data.contains '*' then
        let v' := pyReplaceChar '*' [] v.data
        match pyInOp v' av with
        | .error e => .error e
        | .ok b => mockEvalConds rest entry (if ¬ b then false else found)
      else mockEvalConds rest entry (found && false)
    | none => mockEvalConds rest entry false

/-- `ldap3mock.Connection.search` (lines 135-207 of `tests/ldap3mock.py`):
parse the filter into conditions, then keep every directory entry whose DN
ends with the search base and which passes all conditions, tagging it as a
`searchResEntry`. -/
def mockSearch (directory : List LDAPEntry) (search_base search_filter : String) :
    Except String (List LDAPEntry) :=
  match mockParseConditions search_filter with
  | .error e => .error e
  | .ok condition =>
    directory.foldlM
      (fun (response : List LDAPEntry) entry =>
        (if search_base.data.isSuffixOf entry.dn.data then
          match mockEvalConds condition entry true with
          | .error e => .error e
          | .ok found =>
            .ok (if found then
              response ++ [{ entry with etype := "searchResEntry" }]
            else response)
        else .ok response : Except String (List LDAPEntry)))
      []

/-- Well-formed facade state: a cached bound connection id is always below
the next-connection counter (true initially, preserved by every
operation), so a freshly created connection is never the cached one. -/
def stOK (st : RState) : Prop :=
  ∀ c : Nat, st.bound = some c → c < st.nextConn

/-- Decidable equality for embedded results, so that concrete runs can be
checked by `decide`. -/
instance exceptDecEq {ε α : Type} [DecidableEq ε] [DecidableEq α] :
    DecidableEq (Except ε α) := fun x y =>
  match x, y with
  | .ok a, .ok b =>
    if h : a = b then isTrue (by rw [h]) else
      isFalse (by intro he; cases he; exact h rfl)
  | .error a, .error b =>
    if h : a = b then isTrue (by rw [h]) else
      isFalse (by intro he; cases he; exact h rfl)
  | .ok _, .error _ => isFalse (by intro he; cases he)
  | .error _, .ok _ => isFalse (by intro he; cases he)

/-! ## Helper lemmas about the string primitives -/

theorem dropWhile_eq_self_of_all {p : Char → Bool} :
    ∀ l : List Char, (∀ c ∈ l, ¬ p c) → l.dropWhile p = l := by
  intro l h
  cases l with
  | nil => rfl
  | cons a t =>
    simp only [List.dropWhile_cons]
    have := h a (by simp)
    simp [this]

theorem pyStrip_eq_self {p : Char → Bool} {l : List Char}
    (h : ∀ c ∈ l, ¬ p c) : pyStrip p l = l := by
  unfold pyStrip
  rw [dropWhile_eq_self_of_all l h]
  rw [dropWhile_eq_self_of_all l.reverse (by intro c hc; exact h c (List.mem_reverse.mp hc))]
  exact List.reverse_reverse l

theorem pyStrip_slashes {host : List Char} (h : ('/' : Char) ∉ host) :
    pyStrip (fun c => c = '/') ('/' :: '/' :: host) = host := by
  have hall : ∀ c ∈ host, ¬ ((fun c => (c = '/' : Bool)) c = true) := by
    intro c hc hb
    simp only [decide_eq_true_eq] at hb
    exact h (hb ▸ hc)
  unfold pyStrip
  have h1 : List.dropWhile (fun c => (c = '/' : Bool)) ('/' :: '/' :: host) = host := by
    simp only [List.dropWhile_cons]
    simp only [decide_eq_true_eq, if_pos]
    exact dropWhile_eq_self_of_all host hall
  rw [h1]
  rw [dropWhile_eq_self_of_all host.reverse
    (by intro c hc; exact hall c (List.mem_reverse.mp hc))]
  exact List.reverse_reverse host

theorem pySplit_not_mem {sep : Char} : ∀ {l : List Char}, sep ∉ l →
    pySplit sep l = [l] := by
  intro l
  induction l with
  | nil => intro _; rfl
  | cons a t ih =>
    intro h
    have ha : ¬ (a = sep) := fun he => h (he ▸ List.mem_cons_self a t)
    have ht : sep ∉ t := fun hm => h (List.mem_cons_of_mem a hm)
    simp only [pySplit, if_neg ha, ih ht]

theorem pySplit_append_cons {sep : Char} : ∀ {a : List Char} (b : List Char),
    sep ∉ a → pySplit sep (a ++ sep :: b) = a :: pySplit sep b := by
  intro a
  induction a with
  | nil => intro b _; simp [pySplit]
  | cons x t ih =>
    intro b h
    have hx : ¬ (x = sep) := fun he => h (he ▸ List.mem_cons_self x t)
    have ht : sep ∉ t := fun hm => h (List.mem_cons_of_mem x hm)
    simp only [List.cons_append, pySplit, if_neg hx]
    rw [show (t.append (sep :: b)) = t ++ sep :: b from rfl, ih b ht]

theorem pySplit_length (sep : Char) : ∀ l : List Char,
    (pySplit sep l).length = l.count sep + 1 := by
  intro l
  induction l with
  | nil => rfl
  | cons a t ih =>
    by_cases ha : a = sep
    · subst ha
      simp [pySplit, ih, List.count_cons]
    · have h2 : (pySplit sep t).length = t.count sep + 1 := ih
      rcases hs : pySplit sep t with _ | ⟨u, us⟩
      · rw [hs] at h2; simp at h2
      · simp only [pySplit, if_neg ha, hs]
        rw [hs] at h2
        simp only [List.length_cons] at h2 ⊢
        simp [List.count_cons, ha, h2]

theorem mem_pyLower_colon {s : List Char} (h : (':' : Char) ∈ s) :
    (':' : Char) ∈ pyLower s := by
  have h2 : Char.toLower ':' ∈ pyLower s := List.mem_map_of_mem Char.toLower h
  have h3 : Char.toLower ':' = ':' := by decide
  rwa [h3] at h2

theorem colon_not_mem_scheme {scheme : List Char}
    (h : pyLower scheme = "ldap".data ∨ pyLower scheme = "ldaps".data) :
    (':' : Char) ∉ scheme := by
  intro hm
  have := mem_pyLower_colon hm
  rcases h with h | h <;> rw [h] at this <;> revert this <;> decide

theorem colon_not_mem_hostpart {host : List Char} (hc : (':' : Char) ∉ host) :
    (':' : Char) ∉ '/' :: '/' :: host := by
  intro hm
  rcases List.mem_cons.mp hm with h | hm
  · exact absurd h (by decide)
  rcases List.mem_cons.mp hm with h | hm
  · exact absurd h (by decide)
  exact hc hm

theorem split_uri_noport {scheme host : List Char}
    (hs : pyLower scheme = "ldap".data ∨ pyLower scheme = "ldaps".data)
    (hc : (':' : Char) ∉ host) (hsl : ('/' : Char) ∉ host) :
    split_uri (scheme ++ ':' :: '/' :: '/' :: host) =
      .ok (host, none, decide (pyLower scheme = "ldaps".data)) := by
  have h1 : pySplit ':' (scheme ++ ':' :: '/' :: '/' :: host) =
      scheme :: pySplit ':' ('/' :: '/' :: host) :=
    pySplit_append_cons _ (colon_not_mem_scheme hs)
  have h2 : pySplit ':' ('/' :: '/' :: host) = ['/' :: '/' :: host] :=
    pySplit_not_mem (colon_not_mem_hostpart hc)
  unfold split_uri
  rw [h1, h2]
  show Except.ok (pyStrip (fun c => c = '/') ('/' :: '/' :: host), none,
      decide (pyLower scheme = "ldaps".data)) = _
  rw [pyStrip_slashes hsl]

theorem split_uri_port {scheme host ds : List Char} {m : Nat}
    (hs : pyLower scheme = "ldap".data ∨ pyLower scheme = "ldaps".data)
    (hc : (':' : Char) ∉ host) (hsl : ('/' : Char) ∉ host)
    (hd : (':' : Char) ∉ ds) (hm : pyIntE ds = .ok m) :
    split_uri (scheme ++ ':' :: (('/' :: '/' :: host) ++ ':' :: ds)) =
      .ok (host, some m, decide (pyLower scheme = "ldaps".data)) := by
  have h1 : pySplit ':' (scheme ++ ':' :: (('/' :: '/' :: host) ++ ':' :: ds)) =
      scheme :: pySplit ':' (('/' :: '/' :: host) ++ ':' :: ds) :=
    pySplit_append_cons _ (colon_not_mem_scheme hs)
  have h2 : pySplit ':' (('/' :: '/' :: host) ++ ':' :: ds) =
      ('/' :: '/' :: host) :: pySplit ':' ds :=
    pySplit_append_cons _ (colon_not_mem_hostpart hc)
  have h3 : pySplit ':' ds = [ds] := pySplit_not_mem hd
  unfold split_uri
  rw [h1, h2, h3]
  show (match pyIntE ds with
    | .error e => (.error e : Except String (List Char × Option Nat × Bool))
    | .ok port =>
      Except.ok (pyStrip (fun c => c = '/') ('/' :: '/' :: host), some port,
        decide (pyLower scheme = "ldaps".data))) = _
  rw [hm, pyStrip_slashes hsl]

theorem split_uri_no_colon {uri : List Char} (h : (':' : Char) ∉ uri) :
    split_uri uri = .ok (uri, none, false) := by
  unfold split_uri
  rw [pySplit_not_mem h]

theorem split_uri_many_colons {uri : List Char} (h : 3 ≤ uri.count ':') :
    split_uri uri = .ok (uri, none, false) := by
  have hlen : (pySplit ':' uri).length = uri.count ':' + 1 := pySplit_length ':' uri
  rcases hsp : pySplit ':' uri with _ | ⟨a, _ | ⟨b, _ | ⟨c, _ | ⟨d, rest⟩⟩⟩⟩ <;>
    rw [hsp] at hlen <;> simp at hlen <;> try omega
  unfold split_uri
  rw [hsp]

theorem split_uri_schemeless_hostport {host ds : List Char}
    (hh : (':' : Char) ∉ host) (hd : (':' : Char) ∉ ds) :
    split_uri (host ++ ':' :: ds) =
      .ok (pyStrip (fun c => c = '/') ds, none,
           decide (pyLower host = "ldaps".data)) := by
  have h1 : pySplit ':' (host ++ ':' :: ds) = host :: pySplit ':' ds :=
    pySplit_append_cons _ hh
  have h2 : pySplit ':' ds = [ds] := pySplit_not_mem hd
  unfold split_uri
  rw [h1, h2]

/-- C7: counterexample.  The claim asserts that the scheme-less form
`host:port` yields `(host, declared port, secure=false)`; but
`split_uri "server:1234"` treats `server` as the scheme and `1234` as the
host, returning `("1234", no port, not secure)` — not
`("server", port 1234, not secure)`. -/
theorem c7_counterexample :
    split_uri "server:1234".data = .ok ("1234".data, none, false) ∧
    ¬ (split_uri "server:1234".data = .ok ("server".data, some 1234, false)) := by
  constructor
  · rfl
  · decide

/-- C7 (amended): for URIs with an explicit `ldap`/`ldaps` scheme
(case-insensitively) the parser returns the host, the declared port (unset
when omitted) and secure iff the scheme is `ldaps`; a bare host (no colon)
maps to itself with no port and not secure; an input with three or more
colons falls back to the whole string as host; but the scheme-less form
`host:port` is parsed as `scheme:host`, yielding the port digits
(stripped of slashes) as the host, no port, and secure iff the part before
the colon lowercases to `ldaps`. -/
theorem c7_split_uri_amended :
    (∀ scheme host : List Char,
      pyLower scheme = "ldap".data ∨ pyLower scheme = "ldaps".data →
      (':' : Char) ∉ host → ('/' : Char) ∉ host →
      split_uri (scheme ++ ':' :: '/' :: '/' :: host) =
        .ok (host, none, decide (pyLower scheme = "ldaps".data)))
  ∧ (∀ scheme host ds : List Char, ∀ m : Nat,
      pyLower scheme = "ldap".data ∨ pyLower scheme = "ldaps".data →
      (':' : Char) ∉ host → ('/' : Char) ∉ host →
      (':' : Char) ∉ ds → pyIntE ds = .ok m →
      split_uri (scheme ++ ':' :: (('/' :: '/' :: host) ++ ':' :: ds)) =
        .ok (host, some m, decide (pyLower scheme = "ldaps".data)))
  ∧ (∀ uri : List Char, (':' : Char) ∉ uri →
      split_uri uri = .ok (uri, none, false))
  ∧ (∀ uri : List Char, 3 ≤ uri.count ':' →
      split_uri uri = .ok (uri, none, false))
  ∧ (∀ host ds : List Char, (':' : Char) ∉ host → (':' : Char) ∉ ds →
      split_uri (host ++ ':' :: ds) =
        .ok (pyStrip (fun c => c = '/') ds, none,
             decide (pyLower host = "ldaps".data))) :=
  ⟨fun _ _ hs hc hsl => split_uri_noport hs hc hsl,
   fun _ _ _ _ hs hc hsl hd hm => split_uri_port hs hc hsl hd hm,
   fun _ h => split_uri_no_colon h,
   fun _ h => split_uri_many_colons h,
   fun _ _ hh hd => split_uri_schemeless_hostport hh hd⟩

/-- C7: witness.  `ldaps://dir.example.org:636` parses to host
`dir.example.org`, port 636, secure; `LDAP://x` (mixed case, no port)
parses to host `x`, no port, not secure. -/
theorem c7_witness :
    split_uri ("ldaps".data ++ ':' :: (('/' :: '/' :: "dir.example.org".data) ++
        ':' :: "636".data)) = .ok ("dir.example.org".data, some 636, true) ∧
    split_uri ("LDAP".data ++ ':' :: '/' :: '/' :: "x".data) =
      .ok ("x".data, none, false) := by
  constructor
  · have h := c7_split_uri_amended.2.1 "ldaps".data "dir.example.org".data
      "636".data 636 (Or.inr (by decide)) (by decide) (by decide) (by decide)
      (by decide)
    rwa [show decide (pyLower "ldaps".data = "ldaps".data) = true from by decide] at h
  · have h := c7_split_uri_amended.1 "LDAP".data "x".data (Or.inl (by decide))
      (by decide) (by decide)
    rwa [show decide (pyLower "LDAP".data = "ldaps".data) = false from by decide] at h

theorem pyReplaceChar_append (c : Char) (r : List Char) : ∀ x y : List Char,
    pyReplaceChar c r (x ++ y) = pyReplaceChar c r x ++ pyReplaceChar c r y := by
  intro x y
  induction x with
  | nil => simp [pyReplaceChar]
  | cons a t ih => simp [pyReplaceChar, ih]

theorem escape_loginname_cons (a : Char) (s : List Char) :
    escape_loginname (a :: s) = encChar a ++ escape_loginname s := by
  unfold escape_loginname
  have h1 : pyReplaceChar '\\' "\\5c".data (a :: s) =
      (if a = '\\' then "\\5c".data else [a]) ++ pyReplaceChar '\\' "\\5c".data s := by
    simp [pyReplaceChar]
  rw [h1, pyReplaceChar_append, pyReplaceChar_append, pyReplaceChar_append,
    pyReplaceChar_append]
  by_cases h5 : a = '\\'
  · subst h5; rfl
  by_cases h2 : a = '*'
  · subst h2; rfl
  by_cases h3 : a = '('
  · subst h3; rfl
  by_cases h4 : a = ')'
  · subst h4; rfl
  by_cases h6 : a = '/'
  · subst h6; rfl
  simp [encChar, pyReplaceChar, h5, h2, h3, h4, h6]

theorem escape_eq_encode : ∀ s : List Char, escape_loginname s = encodeLogin s := by
  intro s
  induction s with
  | nil => rfl
  | cons a t ih => rw [escape_loginname_cons, encodeLogin, ih]

theorem encChar_prefix_inj {a b : Char} {x y : List Char}
    (h : encChar a ++ x = encChar b ++ y) : a = b ∧ x = y := by
  unfold encChar at h
  split_ifs at h <;> simp_all
  all_goals exact absurd h.1.symm (by assumption)

theorem encChar_ne_nil (a : Char) : encChar a ≠ [] := by
  unfold encChar
  split_ifs <;> simp

theorem encodeLogin_inj : ∀ s t : List Char,
    encodeLogin s = encodeLogin t → s = t := by
  intro s
  induction s with
  | nil =>
    intro t h
    cases t with
    | nil => rfl
    | cons b t' =>
      exfalso
      have : ([] : List Char) = encChar b ++ encodeLogin t' := h
      rcases he : encChar b with _ | ⟨c, cs⟩
      · exact encChar_ne_nil b he
      · rw [he] at this; simp at this
  | cons a s' ih =>
    intro t h
    cases t with
    | nil =>
      exfalso
      have : encChar a ++ encodeLogin s' = ([] : List Char) := h
      rcases he : encChar a with _ | ⟨c, cs⟩
      · exact encChar_ne_nil a he
      · rw [he] at this; simp at this
    | cons b t' =>
      obtain ⟨hab, hxy⟩ := encChar_prefix_inj h
      rw [hab, ih t' hxy]

/-- C9: `_escape_loginname` replaces each of `\`, `*`, `(`, `)`, `/` by its
protocol hex-escape form (`\5c`, `\2a`, `\28`, `\29`, `\2f`), acting as the
per-character encoding `encChar` on the whole string, and it is injective:
distinct login names never collide after escaping.  The spec's example
`a*b(c)d/e\f` maps to `a\2ab\28c\29d\2fe\5cf`. -/
theorem c9_escape_loginname_injective :
    escape_loginname "a*b(c)d/e\\f".data = "a\\2ab\\28c\\29d\\2fe\\5cf".data ∧
    (∀ s : List Char, escape_loginname s = encodeLogin s) ∧
    ∀ s t : List Char, escape_loginname s = escape_loginname t → s = t := by
  refine ⟨rfl, escape_eq_encode, ?_⟩
  intro s t h
  rw [escape_eq_encode, escape_eq_encode] at h
  exact encodeLogin_inj s t h

/-- C9: witness.  Injectivity applied at the concrete pair
`achmed*` / `achmed*`: equal escapes force equal inputs. -/
theorem c9_witness : ("achmed*".data : List Char) = "achmed*".data :=
  c9_escape_loginname_injective.2.2 "achmed*".data "achmed*".data rfl

/-! ## Dictionary lemmas -/

theorem pyGet_dinsert_self {α : Type} (k : String) (v : α) :
    ∀ d : List (String × α), pyGet (dinsert d k v) k = some v := by
  intro d
  induction d with
  | nil => simp [dinsert, pyGet]
  | cons p t ih =>
    rcases p with ⟨k', v'⟩
    by_cases h : k' = k
    · simp [dinsert, h, pyGet]
    · simp [dinsert, h, pyGet, ih]

theorem pyGet_dinsert_ne {α : Type} {k k' : String} (hne : ¬ (k = k')) (v : α) :
    ∀ d : List (String × α), pyGet (dinsert d k v) k' = pyGet d k' := by
  intro d
  induction d with
  | nil => simp [dinsert, pyGet, hne]
  | cons p t ih =>
    rcases p with ⟨k0, v0⟩
    by_cases h : k0 = k
    · subst h
      simp [dinsert, pyGet, hne]
    · simp [dinsert, h, pyGet, ih]

/-! ## getUserList: size limit and userid injection -/

theorem userListLoop_length (cfg : Config) : ∀ (es : List LDAPEntry)
    (acc : List (List (String × PyVal))), acc.length ≤ cfg.sizelimit →
    (userListLoop cfg es acc).length ≤ cfg.sizelimit := by
  intro es
  induction es with
  | nil => intro acc h; exact h
  | cons e rest ih =>
    intro acc h
    unfold userListLoop
    by_cases hl : cfg.sizelimit ≤ acc.length
    · rw [if_pos hl]; exact h
    · rw [if_neg hl]
      cases hdec : ldap_attributes_to_user_object e.attributes cfg.userinfo with
      | error _ => exact ih acc h
      | ok user =>
        cases hu : get_uid e cfg.uidtype with
        | error _ => exact ih acc h
        | ok uid =>
          apply ih
          rw [List.length_append, List.length_singleton]
          omega

theorem userListLoop_mem (cfg : Config) : ∀ (es : List LDAPEntry)
    (acc : List (List (String × PyVal))) (u : List (String × PyVal)),
    u ∈ userListLoop cfg es acc →
    u ∈ acc ∨ ∃ entry ∈ es, ∃ rec uid,
      ldap_attributes_to_user_object entry.attributes cfg.userinfo = .ok rec ∧
      get_uid entry cfg.uidtype = .ok uid ∧
      u = dinsert rec "userid" uid := by
  intro es
  induction es with
  | nil => intro acc u h; exact Or.inl h
  | cons e rest ih =>
    intro acc u h
    unfold userListLoop at h
    by_cases hl : cfg.sizelimit ≤ acc.length
    · rw [if_pos hl] at h; exact Or.inl h
    · rw [if_neg hl] at h
      cases hdec : ldap_attributes_to_user_object e.attributes cfg.userinfo with
      | error err =>
        rw [hdec] at h
        rcases ih acc u h with hin | ⟨entry, hmem, rest'⟩
        · exact Or.inl hin
        · exact Or.inr ⟨entry, List.mem_cons_of_mem e hmem, rest'⟩
      | ok user =>
        rw [hdec] at h
        cases hu : get_uid e cfg.uidtype with
        | error err =>
          rw [hu] at h
          rcases ih acc u h with hin | ⟨entry, hmem, rest'⟩
          · exact Or.inl hin
          · exact Or.inr ⟨entry, List.mem_cons_of_mem e hmem, rest'⟩
        | ok uid =>
          rw [hu] at h
          rcases ih _ u h with hin | ⟨entry, hmem, rest'⟩
          · rcases List.mem_append.mp hin with hin | hin
            · exact Or.inl hin
            · have : u = dinsert user "userid" uid := by simpa using hin
              exact Or.inr ⟨e, List.mem_cons_self e rest,
                user, uid, hdec, hu, this⟩
          · exact Or.inr ⟨entry, List.mem_cons_of_mem e hmem, rest'⟩

/-- C3: for every search dictionary and configuration, the list returned by
`getUserList` has length at most `sizelimit`, no matter how many entries
the (untrusted) backend streams back: the loop stops appending as soon as
the accumulated count reaches the limit, even mid-page. -/
theorem c3_getUserList_respects_sizelimit (cfg : Config) (w : World)
    (st : RState) (searchDict : List (String × String))
    (l : List (List (String × PyVal)))
    (h : (getUserList cfg w st searchDict).1.out = .ok l) :
    l.length ≤ cfg.sizelimit := by
  unfold getUserList at h
  rcases hb : bindStep cfg w st with ⟨⟨evs, out⟩, st'⟩
  rw [hb] at h
  cases out with
  | error e => simp at h
  | ok c =>
    cases hf : buildUserListFilter cfg w.adNow searchDict with
    | error e => rw [hf] at h; simp at h
    | ok filter =>
      rw [hf] at h
      simp only [Except.ok.injEq] at h
      rw [← h]
      exact userListLoop_length cfg _ [] (by simp)

/-- C3: witness.  A backend with ten matching entries and `sizelimit = 3`
yields exactly three records. -/
theorem c3_witness :
    ∃ l : List (List (String × PyVal)),
      (getUserList
        { uri := "ldap://localhost", basedn := "o=test", binddn := "cn=admin",
          bindpw := "secret", sizelimit := 3, loginname_attribute := "cn",
          searchfilter := "(cn=*)", userinfo := [("username", "cn")],
          uidtype := "cn", noreferrals := false, authtype := "Simple" }
        { connectOk := true, bindOk := fun _ _ => true,
          search := fun _ _ => [],
          pagedSearch := fun _ _ =>
            (List.range 10).map (fun i =>
              { etype := "searchResEntry",
                dn := "cn=u" ++ toString i ++ ",o=test",
                attributes := [("cn", PyVal.vstr ("u" ++ toString i))] }),
          adNow := 1000 }
        ⟨none, 0⟩ []).1.out = .ok l ∧ l.length = 3 ∧ l.length ≤ 3 := by
  have h : (getUserList
        { uri := "ldap://localhost", basedn := "o=test", binddn := "cn=admin",
          bindpw := "secret", sizelimit := 3, loginname_attribute := "cn",
          searchfilter := "(cn=*)", userinfo := [("username", "cn")],
          uidtype := "cn", noreferrals := false, authtype := "Simple" }
        { connectOk := true, bindOk := fun _ _ => true,
          search := fun _ _ => [],
          pagedSearch := fun _ _ =>
            (List.range 10).map (fun i =>
              { etype := "searchResEntry",
                dn := "cn=u" ++ toString i ++ ",o=test",
                attributes := [("cn", PyVal.vstr ("u" ++ toString i))] }),
          adNow := 1000 }
        ⟨none, 0⟩ []).1.out = .ok
      [[("username", PyVal.vstr "u0"), ("userid", PyVal.vstr "u0")],
       [("username", PyVal.vstr "u1"), ("userid", PyVal.vstr "u1")],
       [("username", PyVal.vstr "u2"), ("userid", PyVal.vstr "u2")]] := by rfl
  exact ⟨_, h, rfl, c3_getUserList_respects_sizelimit _ _ _ _ _ h⟩

/-- C10: every record returned by `getUserList` carries the key `userid`,
holding the identifier extracted from its entry by `_get_uid` under the
configured uid attribute; because `user['userid']` is assigned after the
attribute mapping ran, this value overwrites anything the mapping itself
put under `userid` (the record is exactly `dinsert rec "userid" uid` for
the mapped record `rec`). -/
theorem c10_getUserList_userid_key (cfg : Config) (w : World) (st : RState)
    (searchDict : List (String × String)) (l : List (List (String × PyVal)))
    (h : (getUserList cfg w st searchDict).1.out = .ok l) :
    ∀ u ∈ l, ∃ entry rec uid,
      ldap_attributes_to_user_object entry.attributes cfg.userinfo = .ok rec ∧
      get_uid entry cfg.uidtype = .ok uid ∧
      u = dinsert rec "userid" uid ∧
      pyGet u "userid" = some uid := by
  intro u hu
  unfold getUserList at h
  rcases hb : bindStep cfg w st with ⟨⟨evs, out⟩, st'⟩
  rw [hb] at h
  cases out with
  | error e => simp at h
  | ok c =>
    cases hf : buildUserListFilter cfg w.adNow searchDict with
    | error e => rw [hf] at h; simp at h
    | ok filter =>
      rw [hf] at h
      simp only [Except.ok.injEq] at h
      rw [← h] at hu
      rcases userListLoop_mem cfg _ [] u hu with hin | ⟨entry, _, rec, uid, hdec, hget, hdin⟩
      · simp at hin
      · exact ⟨entry, rec, uid, hdec, hget, hdin,
          by rw [hdin]; exact pyGet_dinsert_self "userid" uid rec⟩

/-- C10: witness.  With mapping `{userid: "cn", username: "cn"}` and an
entry whose `cn` is `bob` but whose uid attribute `uid` is `42`, the
returned record's `userid` is `42` (the extracted identifier), overwriting
the mapping-assigned `bob`. -/
theorem c10_witness :
    ∃ entry rec uid,
      ldap_attributes_to_user_object entry.attributes
        [("userid", "cn"), ("username", "cn")] = .ok rec ∧
      get_uid entry "uid" = .ok uid ∧
      ([("userid", PyVal.vstr "42"), ("username", PyVal.vstr "bob")] :
        List (String × PyVal)) = dinsert rec "userid" uid ∧
      pyGet [("userid", PyVal.vstr "42"), ("username", PyVal.vstr "bob")]
        "userid" = some uid := by
  have h : (getUserList
      { uri := "ldap://localhost", basedn := "o=test", binddn := "cn=admin",
        bindpw := "secret", sizelimit := 500, loginname_attribute := "cn",
        searchfilter := "(cn=*)", userinfo := [("userid", "cn"), ("username", "cn")],
        uidtype := "uid", noreferrals := false, authtype := "Simple" }
      { connectOk := true, bindOk := fun _ _ => true,
        search := fun _ _ => [],
        pagedSearch := fun _ _ =>
          [{ etype := "searchResEntry", dn := "cn=bob,o=test",
             attributes := [("cn", PyVal.vstr "bob"), ("uid", PyVal.vstr "42")] }],
        adNow := 1000 }
      ⟨none, 0⟩ []).1.out = .ok
    [[("userid", PyVal.vstr "42"), ("username", PyVal.vstr "bob")]] := by rfl
  exact c10_getUserList_userid_key _ _ _ _ _ h
    [("userid", PyVal.vstr "42"), ("username", PyVal.vstr "bob")] (by simp)

/-! ## checkPass: state and event lemmas -/

theorem stOK_init : stOK ⟨none, 0⟩ := by
  intro c h
  cases h

theorem bindStep_state (cfg : Config) (w : World) (st : RState) :
    (bindStep cfg w st).2 = st ∨
    (bindStep cfg w st).2 = ⟨none, st.nextConn + 1⟩ ∨
    (bindStep cfg w st).2 = ⟨some st.nextConn, st.nextConn + 1⟩ := by
  rcases st with ⟨b, next⟩
  rcases b with _ | c
  · rcases hcc : createConnCheck cfg.authtype with e | u
    · left; simp [bindStep, hcc]
    · by_cases hc : w.connectOk
      · by_cases hk : w.bindOk cfg.binddn cfg.bindpw
        · right; right; simp [bindStep, hcc, hc, hk]
        · right; left; simp [bindStep, hcc, hc, hk]
      · right; left; simp [bindStep, hcc, hc]
  · left; simp [bindStep]

theorem stOK_bindStep (cfg : Config) (w : World) {st : RState} (h : stOK st) :
    stOK (bindStep cfg w st).2 := by
  rcases bindStep_state cfg w st with he | he | he <;> rw [he]
  · exact h
  · intro c' h'
    cases h'
  · intro c' h'
    have h2 : st.nextConn = c' := by
      simpa using h'
    show c' < st.nextConn + 1
    omega

theorem stOK_getDN (cfg : Config) (w : World) {st : RState} (uid : String)
    (h : stOK st) : stOK (getDN cfg w st uid).2 := by
  have hb := @stOK_bindStep cfg w st h
  unfold getDN
  split
  · exact h
  · split
    · exact h
    · split
      · rename_i evs e st' heq
        rw [heq] at hb
        exact hb
      · rename_i evs c st' heq
        rw [heq] at hb
        exact hb

theorem stOK_getUserInfo (cfg : Config) (w : World) {st : RState}
    (uid : String) (h : stOK st) : stOK (getUserInfo cfg w st uid).2 := by
  have hb := @stOK_bindStep cfg w st h
  unfold getUserInfo
  split
  · rename_i evs e st' heq
    rw [heq] at hb
    exact hb
  · rename_i evs c st' heq
    rw [heq] at hb
    exact hb

theorem stOK_resolveBindUser (cfg : Config) (w : World) {st : RState}
    (uid : String) (h : stOK st) : stOK (resolveBindUser cfg w st uid).2 := by
  have hg := @stOK_getUserInfo cfg w st uid h
  unfold resolveBindUser
  split
  · split
    · rename_i evs e st' heq
      rw [heq] at hg
      exact hg
    · rename_i evs uinfo st' heq
      rw [heq] at hg
      exact hg
  · exact stOK_getDN cfg w uid h

theorem bindStep_no_unbind (cfg : Config) (w : World) (st : RState) (cid : Nat) :
    Event.conUnbind cid ∉ (bindStep cfg w st).1.events := by
  unfold bindStep
  split
  · simp
  · split
    · simp
    · split
      · simp
      · split <;> simp

theorem getDN_no_unbind (cfg : Config) (w : World) (st : RState)
    (uid : String) (cid : Nat) :
    Event.conUnbind cid ∉ (getDN cfg w st uid).1.events := by
  have hb := bindStep_no_unbind cfg w st cid
  unfold getDN
  split
  · simp
  · split
    · simp
    · split
      · rename_i evs e st' heq
        rw [heq] at hb
        exact hb
      · rename_i evs c st' heq
        rw [heq] at hb
        intro hmem
        rcases List.mem_append.mp hmem with h1 | h2
        · exact hb h1
        · simp at h2

theorem getUserInfo_no_unbind (cfg : Config) (w : World) (st : RState)
    (uid : String) (cid : Nat) :
    Event.conUnbind cid ∉ (getUserInfo cfg w st uid).1.events := by
  have hb := bindStep_no_unbind cfg w st cid
  unfold getUserInfo
  split
  · rename_i evs e st' heq
    rw [heq] at hb
    exact hb
  · rename_i evs c st' heq
    rw [heq] at hb
    intro hmem
    rcases List.mem_append.mp hmem with h1 | h2
    · exact hb h1
    · simp at h2

theorem resolveBindUser_no_unbind (cfg : Config) (w : World) (st : RState)
    (uid : String) (cid : Nat) :
    Event.conUnbind cid ∉ (resolveBindUser cfg w st uid).1.events := by
  have hg := getUserInfo_no_unbind cfg w st uid cid
  unfold resolveBindUser
  split
  · split
    · rename_i evs e st' heq
      rw [heq] at hg
      exact hg
    · rename_i evs uinfo st' heq
      rw [heq] at hg
      exact hg
  · exact getDN_no_unbind cfg w st uid cid

/-- C1: if the bind identity that `checkPass` resolves for the uid is empty,
the guard `if not bind_user or len(bind_user) < 1: raise` fires inside the
`try` block before any connection is created, so `checkPass` returns
`False`, emits no protocol event beyond those of the resolution step itself
(in particular it opens no session and performs no connect or bind as the
empty identity), and leaves the facade state as resolution left it.
(Hypothesis `hsp`: the configured URI list parses, so building the server
pool does not raise.) -/
theorem c1_checkPass_empty_bind_user (cfg : Config) (w : World) (st : RState)
    (uid password : String) (r1 : Res String) (st1 : RState)
    (sp : List (List Char × Option Nat × Bool))
    (hres : resolveBindUser cfg w st uid = (r1, st1))
    (hout : r1.out = .ok "")
    (hsp : get_serverpool cfg.uri = .ok sp) :
    (checkPass cfg w st uid password).1.out = .ok false ∧
    (checkPass cfg w st uid password).1.events = r1.events ∧
    (checkPass cfg w st uid password).2 = st1 := by
  rcases r1 with ⟨evs, out⟩
  have hout' : out = .ok "" := hout
  subst hout'
  unfold checkPass
  rw [hres, hsp]
  show ((⟨evs ++ (checkPassTry cfg w st1 "" password).1,
    (checkPassTry cfg w st1 "" password).2.1⟩ : Res Bool),
    (checkPassTry cfg w st1 "" password).2.2).1.out = .ok false ∧ _ ∧ _
  simp [checkPassTry]

/-- C1: witness.  DN-typed uids resolve to themselves, so `checkPass` on the
empty uid resolves an empty bind identity: it returns false, records no
events at all, and leaves the state unchanged. -/
theorem c1_witness :
    (checkPass
      { uri := "ldap://localhost", basedn := "o=test", binddn := "cn=admin",
        bindpw := "secret", sizelimit := 500, loginname_attribute := "cn",
        searchfilter := "(cn=*)", userinfo := [("username", "cn")],
        uidtype := "DN", noreferrals := false, authtype := "Simple" }
      { connectOk := true, bindOk := fun _ _ => true, search := fun _ _ => [],
        pagedSearch := fun _ _ => [], adNow := 1000 }
      ⟨none, 0⟩ "" "pw").1.out = .ok false ∧
    (checkPass
      { uri := "ldap://localhost", basedn := "o=test", binddn := "cn=admin",
        bindpw := "secret", sizelimit := 500, loginname_attribute := "cn",
        searchfilter := "(cn=*)", userinfo := [("username", "cn")],
        uidtype := "DN", noreferrals := false, authtype := "Simple" }
      { connectOk := true, bindOk := fun _ _ => true, search := fun _ _ => [],
        pagedSearch := fun _ _ => [], adNow := 1000 }
      ⟨none, 0⟩ "" "pw").1.events = (⟨[], .ok ""⟩ : Res String).events ∧
    (checkPass
      { uri := "ldap://localhost", basedn := "o=test", binddn := "cn=admin",
        bindpw := "secret", sizelimit := 500, loginname_attribute := "cn",
        searchfilter := "(cn=*)", userinfo := [("username", "cn")],
        uidtype := "DN", noreferrals := false, authtype := "Simple" }
      { connectOk := true, bindOk := fun _ _ => true, search := fun _ _ => [],
        pagedSearch := fun _ _ => [], adNow := 1000 }
      ⟨none, 0⟩ "" "pw").2 = ⟨none, 0⟩ :=
  c1_checkPass_empty_bind_user _ _ _ "" "pw" ⟨[], .ok ""⟩ ⟨none, 0⟩
    [("localhost".data, none, false)] rfl rfl rfl

theorem checkPassTry_no_raise (cfg : Config) (w : World) (st : RState)
    (bind_user password : String) :
    ∃ b, (checkPassTry cfg w st bind_user password).2.1 = .ok b := by
  unfold checkPassTry
  split
  · exact ⟨false, rfl⟩
  · split
    · exact ⟨false, rfl⟩
    · split
      · exact ⟨false, rfl⟩
      · split
        · exact ⟨true, rfl⟩
        · exact ⟨false, rfl⟩

/-- C2: counterexample.  The bind-identity resolution
(`bind_user = self._getDN(uid)`, line 118) runs before the `try` block, so
an exception raised there propagates out of `checkPass`: with a service
account whose own bind is rejected, `checkPass` raises
`Wrong credentials` instead of returning `False`, contradicting the claim
that failures while resolving the uid also collapse to `false`. -/
theorem c2_counterexample :
    (checkPass
      { uri := "ldap://localhost", basedn := "o=test", binddn := "cn=admin",
        bindpw := "wrongpw", sizelimit := 500, loginname_attribute := "cn",
        searchfilter := "(cn=*)", userinfo := [("username", "cn")],
        uidtype := "cn", noreferrals := false, authtype := "Simple" }
      { connectOk := true, bindOk := fun _ _ => false, search := fun _ _ => [],
        pagedSearch := fun _ _ => [], adNow := 1000 }
      ⟨none, 0⟩ "u1" "pw").1.out = .error "Wrong credentials" := rfl

/-- C2 (amended): once the bind identity has been resolved and the server
pool has been built without raising, `checkPass` indeed never raises — the
`try` block converts every failure (empty identity, unsupported auth type,
unreachable server, rejected bind) into a Boolean; but exceptions raised
while resolving the uid to a bind identity (service bind failure, more
than one match, GUID decode error) or while parsing the URI list happen
before the `try` block and propagate to the caller. -/
theorem c2_checkPass_no_raise_amended (cfg : Config) (w : World) (st : RState)
    (uid password : String) (r1 : Res String) (st1 : RState) (u : String)
    (sp : List (List Char × Option Nat × Bool))
    (hres : resolveBindUser cfg w st uid = (r1, st1))
    (hout : r1.out = .ok u)
    (hsp : get_serverpool cfg.uri = .ok sp) :
    ∃ b : Bool, (checkPass cfg w st uid password).1.out = .ok b := by
  rcases r1 with ⟨evs, out⟩
  have hout' : out = .ok u := hout
  subst hout'
  unfold checkPass
  rw [hres, hsp]
  show ∃ b, ((⟨evs ++ (checkPassTry cfg w st1 u password).1,
    (checkPassTry cfg w st1 u password).2.1⟩ : Res Bool),
    (checkPassTry cfg w st1 u password).2.2).1.out = .ok b
  exact checkPassTry_no_raise cfg w st1 u password

/-- C2: witness.  With a reachable directory and a correct end-user
password, the amended theorem instantiates to a Boolean outcome. -/
theorem c2_witness :
    ∃ b : Bool, (checkPass
      { uri := "ldap://localhost", basedn := "o=test", binddn := "cn=admin",
        bindpw := "secret", sizelimit := 500, loginname_attribute := "cn",
        searchfilter := "(cn=*)", userinfo := [("username", "cn")],
        uidtype := "DN", noreferrals := false, authtype := "Simple" }
      { connectOk := true, bindOk := fun _ _ => true, search := fun _ _ => [],
        pagedSearch := fun _ _ => [], adNow := 1000 }
      ⟨none, 0⟩ "cn=bob,o=test" "pw").1.out = .ok b :=
  c2_checkPass_no_raise_amended _ _ _ "cn=bob,o=test" "pw"
    ⟨[], .ok "cn=bob,o=test"⟩ ⟨none, 0⟩ "cn=bob,o=test"
    [("localhost".data, none, false)] rfl rfl rfl

/-- C5: counterexample.  On a rejected end-user bind, `raise` skips the
`l.unbind()` call (line 141) and the handler returns `False`: the freshly
opened session (connection 0, events `conOpen`, `conBind`) is never
unbound before `checkPass` returns, contradicting "the session is always
unbound/closed before checkPass returns ... on every failure path". -/
theorem c5_counterexample :
    (checkPass
      { uri := "ldap://localhost", basedn := "o=test", binddn := "cn=admin",
        bindpw := "secret", sizelimit := 500, loginname_attribute := "cn",
        searchfilter := "(cn=*)", userinfo := [("username", "cn")],
        uidtype := "DN", noreferrals := false, authtype := "Simple" }
      { connectOk := true, bindOk := fun _ _ => false, search := fun _ _ => [],
        pagedSearch := fun _ _ => [], adNow := 1000 }
      ⟨none, 0⟩ "cn=bob,o=test" "badpw").1.out = .ok false ∧
    (checkPass
      { uri := "ldap://localhost", basedn := "o=test", binddn := "cn=admin",
        bindpw := "secret", sizelimit := 500, loginname_attribute := "cn",
        searchfilter := "(cn=*)", userinfo := [("username", "cn")],
        uidtype := "DN", noreferrals := false, authtype := "Simple" }
      { connectOk := true, bindOk := fun _ _ => false, search := fun _ _ => [],
        pagedSearch := fun _ _ => [], adNow := 1000 }
      ⟨none, 0⟩ "cn=bob,o=test" "badpw").1.events =
      [.conOpen 0 "cn=bob,o=test", .conBind 0 "cn=bob,o=test"] ∧
    Event.conUnbind 0 ∉ (checkPass
      { uri := "ldap://localhost", basedn := "o=test", binddn := "cn=admin",
        bindpw := "secret", sizelimit := 500, loginname_attribute := "cn",
        searchfilter := "(cn=*)", userinfo := [("username", "cn")],
        uidtype := "DN", noreferrals := false, authtype := "Simple" }
      { connectOk := true, bindOk := fun _ _ => false, search := fun _ _ => [],
        pagedSearch := fun _ _ => [], adNow := 1000 }
      ⟨none, 0⟩ "cn=bob,o=test" "badpw").1.events := by
  refine ⟨rfl, rfl, ?_⟩
  intro hmem
  have hm : Event.conUnbind 0 ∈
      [Event.conOpen 0 "cn=bob,o=test", Event.conBind 0 "cn=bob,o=test"] := hmem
  simp at hm

/-- C5 (amended): the end-user bind of `checkPass` always happens on a
fresh connection (`st1.nextConn`), never the facade's cached
service-account session (whose id, if any, is strictly below
`st1.nextConn`); on the success path the fresh session is unbound before
returning; but on a rejected bind `checkPass` returns `False` with the
fresh session opened and bound and never unbound. -/
theorem c5_checkPass_fresh_session (cfg : Config) (w : World) (st : RState)
    (uid password : String) (r1 : Res String) (st1 : RState) (u : String)
    (sp : List (List Char × Option Nat × Bool))
    (hst : stOK st)
    (hres : resolveBindUser cfg w st uid = (r1, st1))
    (hout : r1.out = .ok u) (hu : ¬ (u = ""))
    (hsp : get_serverpool cfg.uri = .ok sp)
    (hcc : createConnCheck cfg.authtype = .ok ())
    (hconn : w.connectOk = true) :
    (¬ (st1.bound = some st1.nextConn)) ∧
    (w.bindOk u password = true →
      (checkPass cfg w st uid password).1.out = .ok true ∧
      (checkPass cfg w st uid password).1.events =
        r1.events ++ [.conOpen st1.nextConn u, .conBind st1.nextConn u,
          .conUnbind st1.nextConn]) ∧
    (w.bindOk u password = false →
      (checkPass cfg w st uid password).1.out = .ok false ∧
      (checkPass cfg w st uid password).1.events =
        r1.events ++ [.conOpen st1.nextConn u, .conBind st1.nextConn u] ∧
      Event.conUnbind st1.nextConn ∉
        (checkPass cfg w st uid password).1.events) := by
  have hst1 : stOK st1 := by
    have h2 := @stOK_resolveBindUser cfg w st uid hst
    rw [hres] at h2
    exact h2
  have hnu := resolveBindUser_no_unbind cfg w st uid st1.nextConn
  rw [hres] at hnu
  rcases r1 with ⟨evs, out⟩
  have hout' : out = .ok u := hout
  subst hout'
  have hnu' : Event.conUnbind st1.nextConn ∉ evs := hnu
  refine ⟨?_, ?_, ?_⟩
  · intro hbad
    have := hst1 st1.nextConn hbad
    omega
  · intro hbk
    have key : checkPassTry cfg w st1 u password =
        ([.conOpen st1.nextConn u, .conBind st1.nextConn u,
          .conUnbind st1.nextConn], .ok true, ⟨st1.bound, st1.nextConn + 1⟩) := by
      unfold checkPassTry
      rw [if_neg hu, hcc]
      simp [hconn, hbk]
    have hcp : checkPass cfg w st uid password =
        (⟨evs ++ [.conOpen st1.nextConn u, .conBind st1.nextConn u,
          .conUnbind st1.nextConn], .ok true⟩,
         ⟨st1.bound, st1.nextConn + 1⟩) := by
      unfold checkPass
      rw [hres, hsp]
      show ((⟨evs ++ (checkPassTry cfg w st1 u password).1,
        (checkPassTry cfg w st1 u password).2.1⟩ : Res Bool),
        (checkPassTry cfg w st1 u password).2.2) = _
      rw [key]
    rw [hcp]
    exact ⟨rfl, rfl⟩
  · intro hbk
    have key : checkPassTry cfg w st1 u password =
        ([.conOpen st1.nextConn u, .conBind st1.nextConn u], .ok false,
         ⟨st1.bound, st1.nextConn + 1⟩) := by
      unfold checkPassTry
      rw [if_neg hu, hcc]
      simp [hconn, hbk]
    have hcp : checkPass cfg w st uid password =
        (⟨evs ++ [.conOpen st1.nextConn u, .conBind st1.nextConn u],
          .ok false⟩, ⟨st1.bound, st1.nextConn + 1⟩) := by
      unfold checkPass
      rw [hres, hsp]
      show ((⟨evs ++ (checkPassTry cfg w st1 u password).1,
        (checkPassTry cfg w st1 u password).2.1⟩ : Res Bool),
        (checkPassTry cfg w st1 u password).2.2) = _
      rw [key]
    rw [hcp]
    refine ⟨rfl, rfl, ?_⟩
    intro hmem
    rcases List.mem_append.mp hmem with h1 | h2
    · exact hnu' h1
    · simp at h2

/-- C5: witness.  A successful end-user bind on an unbound facade: the
fresh session is connection 0, distinct from the (absent) cached session,
and the event trace ends with its unbind. -/
theorem c5_witness :
    (¬ ((⟨none, 0⟩ : RState).bound = some (⟨none, 0⟩ : RState).nextConn)) ∧
    (checkPass
      { uri := "ldap://localhost", basedn := "o=test", binddn := "cn=admin",
        bindpw := "secret", sizelimit := 500, loginname_attribute := "cn",
        searchfilter := "(cn=*)", userinfo := [("username", "cn")],
        uidtype := "DN", noreferrals := false, authtype := "Simple" }
      { connectOk := true, bindOk := fun _ _ => true, search := fun _ _ => [],
        pagedSearch := fun _ _ => [], adNow := 1000 }
      ⟨none, 0⟩ "cn=bob,o=test" "pw").1.out = .ok true ∧
    (checkPass
      { uri := "ldap://localhost", basedn := "o=test", binddn := "cn=admin",
        bindpw := "secret", sizelimit := 500, loginname_attribute := "cn",
        searchfilter := "(cn=*)", userinfo := [("username", "cn")],
        uidtype := "DN", noreferrals := false, authtype := "Simple" }
      { connectOk := true, bindOk := fun _ _ => true, search := fun _ _ => [],
        pagedSearch := fun _ _ => [], adNow := 1000 }
      ⟨none, 0⟩ "cn=bob,o=test" "pw").1.events =
      [] ++ [.conOpen 0 "cn=bob,o=test", .conBind 0 "cn=bob,o=test",
        .conUnbind 0] := by
  have h := c5_checkPass_fresh_session
    { uri := "ldap://localhost", basedn := "o=test", binddn := "cn=admin",
      bindpw := "secret", sizelimit := 500, loginname_attribute := "cn",
      searchfilter := "(cn=*)", userinfo := [("username", "cn")],
      uidtype := "DN", noreferrals := false, authtype := "Simple" }
    { connectOk := true, bindOk := fun _ _ => true, search := fun _ _ => [],
      pagedSearch := fun _ _ => [], adNow := 1000 }
    ⟨none, 0⟩ "cn=bob,o=test" "pw" ⟨[], .ok "cn=bob,o=test"⟩ ⟨none, 0⟩
    "cn=bob,o=test" [("localhost".data, none, false)]
    stOK_init rfl rfl (by decide) rfl rfl rfl
  exact ⟨h.1, (h.2.1 rfl).1, (h.2.1 rfl).2⟩

/-- C6: when the directory search yields more than one matching entry after
referral trimming, `getUserInfo` and `getUserId` raise the
"Found more than one object" integrity fault instead of picking an
arbitrary entry.  (`bf` is the base/filter pair `getUserInfo` searches
with; `hb` says the service bind succeeds, so the fault raised is the
uniqueness violation and not a bind error.) -/
theorem c6_integrity_violation (cfg : Config) (w : World) (st : RState)
    (userId LoginName : String) (evs : List Event) (c : Nat) (st' : RState)
    (bf : String × String)
    (hb : bindStep cfg w st = (⟨evs, .ok c⟩, st'))
    (hbf : bf = (if (⟨pyLower cfg.uidtype.data⟩ : String) = "dn" then
        (userId, "(&" ++ cfg.searchfilter ++ ")")
      else (cfg.basedn,
        "(&" ++ cfg.searchfilter ++ "(" ++ cfg.uidtype ++ "=" ++ userId ++ "))")))
    (h1 : 1 < (trim_result cfg (w.search bf.1 bf.2)).length)
    (h2 : 1 < (trim_result cfg (w.search cfg.basedn
        ("(&" ++ cfg.searchfilter ++ "(" ++ cfg.loginname_attribute ++ "=" ++
          (⟨escape_loginname LoginName.data⟩ : String) ++ "))"))).length) :
    (getUserInfo cfg w st userId).1.out =
      .error ("Found more than one object for uid '" ++ userId ++ "'") ∧
    (getUserId cfg w st LoginName).1.out =
      .error ("Found more than one object for Loginname '" ++ LoginName ++ "'") := by
  subst hbf
  constructor
  · unfold getUserInfo
    rw [hb]
    exact if_pos h1
  · unfold getUserId
    rw [hb]
    exact if_pos h2

/-- C6: witness.  A directory holding two entries for the same uid / login
name: both lookups raise the integrity fault. -/
theorem c6_witness :
    (getUserInfo
      { uri := "ldap://localhost", basedn := "o=test", binddn := "cn=admin",
        bindpw := "secret", sizelimit := 500, loginname_attribute := "cn",
        searchfilter := "(cn=*)", userinfo := [("username", "cn")],
        uidtype := "cn", noreferrals := true, authtype := "Simple" }
      { connectOk := true, bindOk := fun _ _ => true,
        search := fun _ _ =>
          [{ etype := "searchResEntry", dn := "cn=bob,o=test",
             attributes := [("cn", PyVal.vstr "bob")] },
           { etype := "searchResEntry", dn := "cn=bob,ou=x,o=test",
             attributes := [("cn", PyVal.vstr "bob")] }],
        pagedSearch := fun _ _ => [], adNow := 1000 }
      ⟨some 0, 1⟩ "bob").1.out =
      .error "Found more than one object for uid 'bob'" ∧
    (getUserId
      { uri := "ldap://localhost", basedn := "o=test", binddn := "cn=admin",
        bindpw := "secret", sizelimit := 500, loginname_attribute := "cn",
        searchfilter := "(cn=*)", userinfo := [("username", "cn")],
        uidtype := "cn", noreferrals := true, authtype := "Simple" }
      { connectOk := true, bindOk := fun _ _ => true,
        search := fun _ _ =>
          [{ etype := "searchResEntry", dn := "cn=bob,o=test",
             attributes := [("cn", PyVal.vstr "bob")] },
           { etype := "searchResEntry", dn := "cn=bob,ou=x,o=test",
             attributes := [("cn", PyVal.vstr "bob")] }],
        pagedSearch := fun _ _ => [], adNow := 1000 }
      ⟨some 0, 1⟩ "bob").1.out =
      .error "Found more than one object for Loginname 'bob'" := by
  have h := c6_integrity_violation
    { uri := "ldap://localhost", basedn := "o=test", binddn := "cn=admin",
      bindpw := "secret", sizelimit := 500, loginname_attribute := "cn",
      searchfilter := "(cn=*)", userinfo := [("username", "cn")],
      uidtype := "cn", noreferrals := true, authtype := "Simple" }
    { connectOk := true, bindOk := fun _ _ => true,
      search := fun _ _ =>
        [{ etype := "searchResEntry", dn := "cn=bob,o=test",
           attributes := [("cn", PyVal.vstr "bob")] },
         { etype := "searchResEntry", dn := "cn=bob,ou=x,o=test",
           attributes := [("cn", PyVal.vstr "bob")] }],
      pagedSearch := fun _ _ => [], adNow := 1000 }
    ⟨some 0, 1⟩ "bob" "bob" [] 0 ⟨some 0, 1⟩ ("o=test", "(&(cn=*)(cn=bob))")
    rfl (by rfl) (by decide) (by decide)
  exact h

/-! ## Attribute decoding lemmas -/

theorem decodeInner_notkey {ldap_k : String} {v : PyVal} :
    ∀ (userinfo : List (String × String)) (acc acc' : List (String × PyVal))
    (map_k : String),
    map_k ∉ userinfo.map Prod.fst →
    decodeInner ldap_k v userinfo acc = .ok acc' →
    pyGet acc' map_k = pyGet acc map_k := by
  intro userinfo
  induction userinfo with
  | nil =>
    intro acc acc' map_k _ hdec
    cases hdec
    rfl
  | cons p rest ih =>
    rcases p with ⟨k0, v0⟩
    intro acc acc' map_k hnot hdec
    have hk0 : ¬ (k0 = map_k) := by
      intro he
      exact hnot (by simp [he])
    have hrest : map_k ∉ rest.map Prod.fst := by
      intro hmem
      exact hnot (by simp [hmem])
    unfold decodeInner at hdec
    by_cases hl : ldap_k = v0
    · rw [if_pos hl] at hdec
      cases hc : convOne k0 ldap_k v with
      | error e => rw [hc] at hdec; cases hdec
      | ok cv =>
        rw [hc] at hdec
        have := ih (dinsert acc k0 cv) acc' map_k hrest hdec
        rw [this, pyGet_dinsert_ne (fun he => hk0 he) cv]
    · rw [if_neg hl] at hdec
      exact ih acc acc' map_k hrest hdec

theorem decodeInner_lookup {ldap_k : String} {v : PyVal} :
    ∀ (userinfo : List (String × String)) (acc acc' : List (String × PyVal))
    (map_k map_v : String),
    (userinfo.map Prod.fst).Nodup →
    (map_k, map_v) ∈ userinfo →
    decodeInner ldap_k v userinfo acc = .ok acc' →
    (ldap_k = map_v →
      ∃ cv, convOne map_k ldap_k v = .ok cv ∧ pyGet acc' map_k = some cv) ∧
    (¬ (ldap_k = map_v) → pyGet acc' map_k = pyGet acc map_k) := by
  intro userinfo
  induction userinfo with
  | nil =>
    intro acc acc' map_k map_v _ hmem _
    cases hmem
  | cons p rest ih =>
    rcases p with ⟨k0, v0⟩
    intro acc acc' map_k map_v hnd hmem hdec
    have hnd2 := List.nodup_cons.mp (by simpa only [List.map_cons] using hnd)
    have hnd0 : k0 ∉ rest.map Prod.fst := hnd2.1
    have hndr : (rest.map Prod.fst).Nodup := hnd2.2
    rcases List.mem_cons.mp hmem with hhead | htail
    · have hk : map_k = k0 := by
        have h2 := congrArg Prod.fst hhead; simpa using h2
      have hv : map_v = v0 := by
        have h2 := congrArg Prod.snd hhead; simpa using h2
      subst hk
      subst hv
      unfold decodeInner at hdec
      by_cases hl : ldap_k = map_v
      · rw [if_pos hl] at hdec
        constructor
        · intro _
          cases hc : convOne map_k ldap_k v with
          | error e => rw [hc] at hdec; cases hdec
          | ok cv =>
            rw [hc] at hdec
            refine ⟨cv, rfl, ?_⟩
            rw [decodeInner_notkey rest (dinsert acc map_k cv) acc' map_k hnd0 hdec]
            exact pyGet_dinsert_self map_k cv acc
        · intro hne
          exact absurd hl hne
      · rw [if_neg hl] at hdec
        constructor
        · intro he
          exact absurd he hl
        · intro _
          exact decodeInner_notkey rest acc acc' map_k hnd0 hdec
    · have hk0 : ¬ (k0 = map_k) := by
        intro he
        apply hnd0
        subst he
        exact List.mem_map_of_mem Prod.fst htail
      unfold decodeInner at hdec
      by_cases hl : ldap_k = v0
      · rw [if_pos hl] at hdec
        cases hc : convOne k0 ldap_k v with
        | error e => rw [hc] at hdec; cases hdec
        | ok cv =>
          rw [hc] at hdec
          have hih := ih (dinsert acc k0 cv) acc' map_k map_v hndr htail hdec
          refine ⟨hih.1, ?_⟩
          intro hne
          rw [hih.2 hne, pyGet_dinsert_ne (fun he => hk0 he) cv]
      · rw [if_neg hl] at hdec
        exact ih acc acc' map_k map_v hndr htail hdec

theorem decodeFold_lookup {userinfo : List (String × String)}
    (hn : (userinfo.map Prod.fst).Nodup) {map_k map_v : String}
    (hm : (map_k, map_v) ∈ userinfo) :
    ∀ (attrs : List (String × PyVal)) (acc ret : List (String × PyVal)),
    (attrs.map Prod.fst).Nodup →
    decodeFold userinfo attrs acc = .ok ret →
    (∀ v, (map_v, v) ∈ attrs →
      ∃ cv, convOne map_k map_v v = .ok cv ∧ pyGet ret map_k = some cv) ∧
    (map_v ∉ attrs.map Prod.fst → pyGet ret map_k = pyGet acc map_k) := by
  intro attrs
  induction attrs with
  | nil =>
    intro acc ret _ hdec
    cases hdec
    exact ⟨fun v hv => absurd hv (by simp), fun _ => rfl⟩
  | cons p rest ih =>
    rcases p with ⟨lk, v0⟩
    intro acc ret hnd hdec
    have hnd2 := List.nodup_cons.mp (by simpa only [List.map_cons] using hnd)
    have hnd0 : lk ∉ rest.map Prod.fst := hnd2.1
    have hndr : (rest.map Prod.fst).Nodup := hnd2.2
    unfold decodeFold at hdec
    cases hi : decodeInner lk v0 userinfo acc with
    | error e => rw [hi] at hdec; cases hdec
    | ok acc2 =>
      rw [hi] at hdec
      have hih := ih acc2 ret hndr hdec
      constructor
      · intro v hv
        rcases List.mem_cons.mp hv with hhead | htail
        · have hlk : map_v = lk := by
            have h2 := congrArg Prod.fst hhead; simpa using h2
          have hv0 : v = v0 := by
            have h2 := congrArg Prod.snd hhead; simpa using h2
          subst hv0
          subst hlk
          have hli := decodeInner_lookup userinfo acc acc2 map_k map_v hn hm hi
          rcases hli.1 rfl with ⟨cv, hcv, hlook⟩
          refine ⟨cv, hcv, ?_⟩
          rw [hih.2 hnd0, hlook]
        · exact hih.1 v htail
      · intro hnotin
        have hlkne : ¬ (lk = map_v) := by
          intro he
          exact hnotin (by simp [he])
        have hrest : map_v ∉ rest.map Prod.fst := by
          intro hmem
          exact hnotin (by simp [hmem])
        rw [hih.2 hrest]
        exact (decodeInner_lookup userinfo acc acc2 map_k map_v hn hm hi).2
          (fun he => hlkne (he ▸ rfl))

/-- C8: counterexample.  The claim says any multi-valued attribute not
mapped to `mobile` contributes its *first value*; but an attribute named
`objectGUID` is instead GUID-decoded: its first value
`"ABCDEFGHIJKLMNOP"` (bytes 0x41..0x50) becomes the canonical GUID text
`44434241-4645-4847-494a-4b4c4d4e4f50`, which is not the first value. -/
theorem c8_counterexample :
    ldap_attributes_to_user_object
      [("objectGUID", PyVal.vlist ["ABCDEFGHIJKLMNOP"])] [("x", "objectGUID")] =
      .ok [("x", PyVal.vstr "44434241-4645-4847-494a-4b4c4d4e4f50")] ∧
    ¬ (PyVal.vstr "44434241-4645-4847-494a-4b4c4d4e4f50" =
       PyVal.vstr "ABCDEFGHIJKLMNOP") := by
  constructor
  · rfl
  · decide

/-- C8 (amended): for every raw attribute set and mapping (with unique
keys on both sides), each canonical field `map_k` mapped to a directory
attribute `map_v` other than `objectGUID` is produced as the claim states:
a multi-valued attribute mapped to `mobile` is kept as the full list, any
other multi-valued attribute contributes only its first value, a
single-valued attribute is used as-is, and a field whose attribute is
absent from the raw result is omitted entirely; the attribute named
`objectGUID`, however, is decoded from its first value's 16 little-endian
bytes into canonical GUID text rather than passed through. -/
theorem c8_attributes_to_record (attrs : List (String × PyVal))
    (userinfo : List (String × String)) (ret : List (String × PyVal))
    (map_k map_v : String)
    (hn : (userinfo.map Prod.fst).Nodup)
    (ha : (attrs.map Prod.fst).Nodup)
    (hm : (map_k, map_v) ∈ userinfo)
    (hg : ¬ (map_v = "objectGUID"))
    (hd : ldap_attributes_to_user_object attrs userinfo = .ok ret) :
    (∀ l, (map_v, PyVal.vlist l) ∈ attrs → map_k = "mobile" →
      pyGet ret map_k = some (PyVal.vlist l)) ∧
    (∀ x xs, (map_v, PyVal.vlist (x :: xs)) ∈ attrs → ¬ (map_k = "mobile") →
      pyGet ret map_k = some (PyVal.vstr x)) ∧
    (∀ s, (map_v, PyVal.vstr s) ∈ attrs →
      pyGet ret map_k = some (PyVal.vstr s)) ∧
    (map_v ∉ attrs.map Prod.fst → pyGet ret map_k = none) := by
  have hf := decodeFold_lookup hn hm attrs [] ret ha hd
  refine ⟨?_, ?_, ?_, ?_⟩
  · intro l hmem hmob
    rcases hf.1 (PyVal.vlist l) hmem with ⟨cv, hcv, hlook⟩
    have : cv = PyVal.vlist l := by
      unfold convOne at hcv
      rw [if_neg hg] at hcv
      simp [hmob] at hcv
      exact hcv.symm
    rw [hlook, this]
  · intro x xs hmem hmob
    rcases hf.1 (PyVal.vlist (x :: xs)) hmem with ⟨cv, hcv, hlook⟩
    have : cv = PyVal.vstr x := by
      unfold convOne at hcv
      rw [if_neg hg] at hcv
      simp [hmob] at hcv
      exact hcv.symm
    rw [hlook, this]
  · intro str hmem
    rcases hf.1 (PyVal.vstr str) hmem with ⟨cv, hcv, hlook⟩
    have : cv = PyVal.vstr str := by
      unfold convOne at hcv
      rw [if_neg hg] at hcv
      simp at hcv
      exact hcv.symm
    rw [hlook, this]
  · intro habs
    rw [hf.2 habs]
    rfl

/-- C8: witness.  `{mobile: telephoneNumber}` keeps the full list
`["+1","+2"]`; `{username: cn}` collapses `["alice","alice2"]` to
`"alice"`; an absent attribute (`email: mail`) is omitted. -/
theorem c8_witness :
    pyGet [("mobile", PyVal.vlist ["+1", "+2"])] "mobile" =
      some (PyVal.vlist ["+1", "+2"]) ∧
    pyGet [("username", PyVal.vstr "alice")] "username" =
      some (PyVal.vstr "alice") ∧
    pyGet ([] : List (String × PyVal)) "email" = none := by
  refine ⟨?_, ?_, ?_⟩
  · exact (c8_attributes_to_record [("telephoneNumber", PyVal.vlist ["+1", "+2"])]
      [("mobile", "telephoneNumber")] [("mobile", PyVal.vlist ["+1", "+2"])]
      "mobile" "telephoneNumber" (by decide) (by decide) (by decide) (by decide)
      rfl).1 ["+1", "+2"] (by decide) rfl
  · exact (c8_attributes_to_record [("cn", PyVal.vlist ["alice", "alice2"])]
      [("username", "cn")] [("username", PyVal.vstr "alice")]
      "username" "cn" (by decide) (by decide) (by decide) (by decide)
      rfl).2.1 "alice" ["alice2"] (by decide) (by decide)
  · exact (c8_attributes_to_record [("cn", PyVal.vstr "alice")]
      [("email", "mail")] [] "email" "mail" (by decide) (by decide) (by decide)
      (by decide) rfl).2.2.2 (by decide)

/-- C4: counterexample.  For a representative configuration (base filter
`(objectClass=person)`, expiry attribute `accountExpires`, timestamp 1000)
and a "not expired" criterion, the compiled clause is
`(accountExpires!=0)` — not the claimed disjunct `(accountExpires=0)` —
and under the repository's simulated backend the filter matches *nothing*:
in particular the zero-sentinel (never-expires) entry
`accountExpires = 0` is excluded from the result set, where the claim
requires it to be included. -/
theorem c4_counterexample :
    buildUserListFilter
      { uri := "ldap://localhost", basedn := "o=test", binddn := "cn=admin",
        bindpw := "secret", sizelimit := 500, loginname_attribute := "cn",
        searchfilter := "(objectClass=person)",
        userinfo := [("username", "cn"), ("accountExpires", "accountExpires")],
        uidtype := "cn", noreferrals := false, authtype := "Simple" }
      1000 [("accountExpires", "0")] =
      .ok "(&(objectClass=person)(|(accountExpires>=1000)(accountExpires!=0)))" ∧
    ¬ (("(&(objectClass=person)(|(accountExpires>=1000)(accountExpires!=0)))" : String) =
       "(&(objectClass=person)(|(accountExpires>=1000)(accountExpires=0)))") ∧
    mockSearch
      [{ etype := "", dn := "cn=alice,o=test",
         attributes := [("objectClass", PyVal.vstr "person"),
                        ("accountExpires", PyVal.vint 0)] }]
      "o=test"
      "(&(objectClass=person)(|(accountExpires>=1000)(accountExpires!=0)))" =
      .ok [] := by
  refine ⟨by rfl, by decide, by rfl⟩

/-- C4 (amended): the clause emitted for a "not expired" `accountExpires`
criterion is the disjunction-shaped string
`(|(<attr>>=<current timestamp>)(<attr>!=0))` — with `!=0`, not the
claimed `=0` — and under the repository's simulated backend (which
flattens the filter into a conjunction of conditions, treats
`accountExpires>` as an unknown attribute that no entry has, and reads
`accountExpires!=0` as a numeric inequality) the compiled filter matches
no entry at all, whatever its expiry value: entries expired in the past
are excluded, but so are the zero-sentinel never-expires entries. -/
theorem c4_expiry_filter :
    (∀ now : Nat, buildUserListFilter
      { uri := "ldap://localhost", basedn := "o=test", binddn := "cn=admin",
        bindpw := "secret", sizelimit := 500, loginname_attribute := "cn",
        searchfilter := "(objectClass=person)",
        userinfo := [("username", "cn"), ("accountExpires", "accountExpires")],
        uidtype := "cn", noreferrals := false, authtype := "Simple" }
      now [("accountExpires", "0")] =
      .ok ("(&(objectClass=person)(|(accountExpires>=" ++ toString now ++
        ")(accountExpires!=0)))")) ∧
    (∀ exp : Int, mockSearch
      [{ etype := "", dn := "cn=alice,o=test",
         attributes := [("objectClass", PyVal.vstr "person"),
                        ("accountExpires", PyVal.vint exp)] }]
      "o=test"
      "(&(objectClass=person)(|(accountExpires>=1000)(accountExpires!=0)))" =
      .ok []) := by
  constructor
  · intro now
    unfold buildUserListFilter
    simp [List.foldlM, pyGet, String.append_assoc]
  · intro exp
    unfold mockSearch
    rw [show mockParseConditions
        "(&(objectClass=person)(|(accountExpires>=1000)(accountExpires!=0)))" =
        .ok [("objectClass", "person"), ("accountExpires>", "1000"),
             ("accountExpires!", "0")] from rfl]
    simp [List.foldlM, mockEvalConds, pyGet, pyIntE, pyNeInt, pyEqStr]
    intro h
    split
    · rename_i e heq
      split at heq <;> cases heq
    · rename_i found heq
      split at heq <;> (cases heq; rfl)
